import Mathlib

/-!
# Comcast/sheens `js/demo.c`: the Duktape command-line harness

A shallow embedding of `src/js/demo.c`.  The C functions of the file
(`readFile`, `native_print`, `eval_raw`, `tostring_raw`, `usage_exit`,
`strdup`, `sandbox`, `readfile`, `main`) are translated statement by
statement; every translated statement carries the C line it comes from.

The JavaScript engine (Duktape, `duktape.h`) is not part of the sources.
Its script semantics is a parameter (`Engine`): what a source text does when
it is evaluated, and what the ToString coercion of a value that is not a
string does.  Both are script code running in an interpreter instance: both
can call the C functions registered there (`Script`), and so can write to
standard output, create instances, or end the process.  Every theorem with
an `E : Engine` holds for every engine.  The value-stack API calls the C
code makes (`duk_push_string`, `duk_insert`, `duk_join`, `duk_safe_call`,
...) are defined here after the Duktape API contract.  `miniEngine` is one
small concrete engine, used to run the code on concrete inputs.

Modelling conventions:
* a `const char *` is the `String` it points at; whoever reads it as a C
  string (`printf("%s")`, `strdup`, `duk_push_string`, `fopen`) sees the
  characters before the first NUL (`cstr`);
* the bytes of a file are the characters of a `String`; `fread` reads the
  whole file;
* `malloc` and `duk_create_heap_default` do not fail;
* a script evaluation or coercion is a finite tree of host calls (`Script`):
  runs that do not terminate are outside the model;
* C functions called from script code that a C function started nest; the
  engine bounds the nesting (Duktape's native call limit, `Engine.reclimit`)
  and answers a call beyond the bound with an error;
* `World` is the process state: files, standard output, standard error, the
  live interpreter instances and a log of the instance operations;
* the global `ctx` of the C file, a struct around the one field `dctx`, is
  the instance `dctx` that `main` passes along.
-/

namespace Demo

/-! ## C strings -/

/-- The NUL character that ends a C string. -/
def NUL : Char := Char.ofNat 0

/-- What the reader of a `const char *` sees of the data it points at: the
characters before the first NUL. -/
def cstr (p : String) : String :=
  String.mk (p.data.takeWhile (fun c => c != NUL))

/-! ## Values, scripts and the engine -/

/-- The C functions `main` registers in the top-level instance. -/
inductive Native where
  | native_print
  | sandbox
  | readfile
  deriving DecidableEq, Repr

/-- A value on a Duktape value stack, as far as the harness tells values
apart: strings are looked into, every other value is handled by the engine. -/
inductive Value where
  | undefined
  | null
  | number (n : Int)
  | string (s : String)
  | object (ref : Nat)
  | cfunction (f : Native) (nargs : Int)
  deriving DecidableEq, Repr

/-- The behaviour of one run of script code on a heap of type `H`, with
results of type `α`: it ends with a heap and a completion (a result, or a
thrown error), or it calls a C function with arguments and goes on with what
the call gives back (a return value, or an error the C function threw). -/
inductive Script (H : Type) (α : Type) where
  | done (h : H) (r : Except Value α)
  | call (h : H) (f : Native) (nargs : Int) (args : List Value)
      (k : H → Except Value Value → Script H α)

/-- The script engine behind `duktape.h`, a parameter of the development.
`Heap` is the script-visible state of one interpreter instance (globals and
objects); `fresh` is that state right after `duk_create_heap_default`;
`toString` is the ECMAScript ToString coercion of a non-string value: it
runs the value's own `toString` and `valueOf` as script code, so it may call
C functions, throw, and change the heap; `eval` is the evaluation of a
source text; `getGlobal` and `putGlobal` read and write a binding of the
global namespace; `apiError` is the error an API call throws on an invalid
stack index or argument, or on a call beyond the native call limit
`reclimit`. -/
structure Engine where
  Heap : Type
  fresh : Heap
  toString : Heap → Value → Script Heap String
  putGlobal : Heap → String → Value → Heap
  getGlobal : Heap → String → Option Value
  eval : Heap → String → Script Heap Value
  apiError : Value
  reclimit : Nat

/-- One interpreter instance (`duk_context *`): its handle, its heap and the
value stack of the running activation, bottom first (index 0 is the head). -/
structure Inst (E : Engine) where
  id : Nat
  heap : E.Heap
  stack : List Value

/-! ## The process state -/

/-- An instance operation, logged in the order it happens. -/
inductive Event (E : Engine) where
  | create (id : Nat)
  | destroy (id : Nat)
  | eval (id : Nat) (heap : E.Heap) (src : String)
  | exit (code : Int)

/-- The state of the process: the files it can open (path and contents),
what it has written to standard output and standard error, the next unused
instance handle, the live instances and the log of instance operations. -/
structure World (E : Engine) where
  files : List (String × String)
  out : String
  err : String
  next : Nat
  live : List Nat
  trace : List (Event E)

/-- The process state at the start of `main`. -/
def World.init (E : Engine) (files : List (String × String)) : World E :=
  { files := files, out := "", err := "", next := 0, live := [], trace := [] }

/-- How a piece of C code ends: it returns `a`; a Duktape error is thrown
(`longjmp` to the nearest protected call); `exit(code)` ends the process; or
it accesses memory outside an allocation (undefined behaviour). -/
inductive Res (α : Type) where
  | ok (a : α)
  | throw (e : Value)
  | exit (code : Int)
  | fault
  deriving DecidableEq, Repr

/-- A thrown error as an outcome: a completion that is a thrown error counts
as a throw. -/
def Res.flat {α : Type} : Res (Except Value α) → Res α
  | Res.ok (Except.ok a) => Res.ok a
  | Res.ok (Except.error e) => Res.throw e
  | Res.throw e => Res.throw e
  | Res.exit code => Res.exit code
  | Res.fault => Res.fault

/-- A Duktape/C function (`duk_c_function`): runs on the instance whose
value stack holds its arguments and returns the number of return values. -/
abbrev CFunction (E : Engine) := Inst E → World E → Res Int × Inst E × World E

/-- The C functions script code of an instance can call, by function
pointer; `none` for one it cannot call. -/
abbrev Host (E : Engine) := Native → Option (CFunction E)

/-- The `fprintf(stderr, ...)` of an already formatted text. -/
def fprintf_stderr {E : Engine} (w : World E) (s : String) : World E :=
  { w with err := w.err ++ s }

/-- The `printf(...)` of an already formatted text. -/
def printf {E : Engine} (w : World E) (s : String) : World E :=
  { w with out := w.out ++ s }

/-- The C library `exit(code)`: the process ends here. -/
def exit {E : Engine} {α : Type} (code : Int) (w : World E) : Res α × World E :=
  (Res.exit code, { w with trace := w.trace ++ [Event.exit code] })

/-- The `fopen(path, "rb")` followed by reading everything: the contents of
the file, `none` when it cannot be opened. -/
def fopen {E : Engine} (w : World E) (path : String) : Option String :=
  w.files.lookup path

/-! ## The Duktape API calls the harness makes -/

/-- The constants `DUK_VARARGS`, `DUK_EXEC_SUCCESS`, `DUK_EXEC_ERROR`. -/
def DUK_VARARGS : Int := -1

def DUK_EXEC_SUCCESS : Int := 0

def DUK_EXEC_ERROR : Int := 1

/-- Duktape index normalisation: a non-negative index counts from the bottom,
a negative one from the top; `none` when it is outside the stack. -/
def normIdx (len : Nat) (idx : Int) : Option Nat :=
  if 0 ≤ idx then (if idx < len then some idx.toNat else none)
  else (if 0 ≤ (len : Int) + idx then some ((len : Int) + idx).toNat else none)

/-- The call `duk_create_heap_default()`: a new instance with the default heap and an
empty value stack, under a handle not used before. -/
def duk_create_heap_default (E : Engine) (w : World E) : Inst E × World E :=
  ({ id := w.next, heap := E.fresh, stack := [] },
   { w with next := w.next + 1, live := w.next :: w.live,
            trace := w.trace ++ [Event.create w.next] })

/-- The call `duk_destroy_heap(c)`: the instance is no longer live. -/
def duk_destroy_heap {E : Engine} (c : Inst E) (w : World E) : World E :=
  { w with live := w.live.erase c.id, trace := w.trace ++ [Event.destroy c.id] }

/-- The call `duk_get_top(c)`: the number of values on the stack. -/
def duk_get_top {E : Engine} (c : Inst E) : Int := c.stack.length

/-- The call `duk_push_string(c, p)`: pushes the C string at `p`, or `null` when `p`
is `NULL`. -/
def duk_push_string {E : Engine} (c : Inst E) (p : Option String) : Inst E :=
  match p with
  | some s => { c with stack := c.stack ++ [Value.string (cstr s)] }
  | none => { c with stack := c.stack ++ [Value.null] }

/-- The call `duk_push_c_function(c, f, nargs)`: pushes a function object for `f`. -/
def duk_push_c_function {E : Engine} (c : Inst E) (f : Native) (nargs : Int) : Inst E :=
  { c with stack := c.stack ++ [Value.cfunction f nargs] }

/-- The call `duk_put_global_string(c, key)`: pops the top value and binds it to the
global `key`; an API error when the stack is empty. -/
def duk_put_global_string {E : Engine} (c : Inst E) (key : String) :
    Except Value (Inst E) :=
  match c.stack.getLast? with
  | some v =>
    Except.ok { c with heap := E.putGlobal c.heap (cstr key) v, stack := c.stack.dropLast }
  | none => Except.error E.apiError

/-- The call `duk_insert(c, to_idx)`: moves the top value to `to_idx`, shifting the
values from there on up by one; an API error on an invalid index. -/
def duk_insert {E : Engine} (c : Inst E) (to_idx : Int) : Except Value (Inst E) :=
  match normIdx c.stack.length to_idx, c.stack.getLast? with
  | some i, some v =>
    Except.ok { c with stack := c.stack.dropLast.take i ++ v :: c.stack.dropLast.drop i }
  | _, _ => Except.error E.apiError

/-- Duktape's calling convention for a C function: the arguments are cut or
padded with `undefined` to the declared `nargs`, unless it is `DUK_VARARGS`. -/
def adjustArgs (nargs : Int) (args : List Value) : List Value :=
  if nargs < 0 then args
  else (args ++ List.replicate nargs.toNat Value.undefined).take nargs.toNat

/-- Duktape's calling convention for a C function's return code: 0 gives
`undefined`, 1 gives the value on the stack top, anything else is an error. -/
def returnValue (E : Engine) (rc : Int) (stack : List Value) : Except Value Value :=
  if rc = 0 then Except.ok Value.undefined
  else if rc = 1 then Except.ok (stack.getLast?.getD Value.undefined)
  else Except.error E.apiError

/-- Runs script code on instance `id`.  `host` gives the body of each C
function the code can call.  A call of a C function runs its body on a fresh
activation holding the arguments; what it returns or throws goes back to the
script; `exit` and a memory fault end the run.  A call that `host` cannot
serve (the function is not registered in the instance, or the native call
limit is reached) gives the script an error. -/
def runScript (E : Engine) (host : Host E) (id : Nat) {α : Type} :
    Script E.Heap α → World E → Res (Except Value α) × E.Heap × World E
  | Script.done h r, w => (Res.ok r, h, w)
  | Script.call h f nargs args k, w =>
    match host f with
    | none => runScript E host id (k h (Except.error E.apiError)) w
    | some body =>
      match body { id := id, heap := h, stack := adjustArgs nargs args } w with
      | (Res.ok rc, c, w1) => runScript E host id (k c.heap (returnValue E rc c.stack)) w1
      | (Res.throw e, c, w1) => runScript E host id (k c.heap (Except.error e)) w1
      | (Res.exit code, c, w1) => (Res.exit code, c.heap, w1)
      | (Res.fault, c, w1) => (Res.fault, c.heap, w1)

/-- ToString of a stack value in instance `id`: a string is its own string
form; for every other value the engine's coercion runs, as script code of
that instance. -/
def coerce (E : Engine) (host : Host E) (id : Nat) (h : E.Heap) (v : Value) (w : World E) :
    Res String × E.Heap × World E :=
  match v with
  | Value.string s => (Res.ok s, h, w)
  | v =>
    match runScript E host id (E.toString h v) w with
    | (r, h1, w1) => (r.flat, h1, w1)

/-- The call `duk_to_string(c, idx)`: replaces the value at `idx` by its ToString
coercion and returns a pointer to the string data; throws what the coercion
throws, and an API error on an invalid index. -/
def duk_to_string (E : Engine) (host : Host E) (c : Inst E) (idx : Int) (w : World E) :
    Res String × Inst E × World E :=
  match normIdx c.stack.length idx with
  | none => (Res.throw E.apiError, c, w)
  | some i =>
    match c.stack.get? i with
    | none => (Res.throw E.apiError, c, w)
    | some v =>
      match coerce E host c.id c.heap v w with
      | (Res.ok s, h, w1) =>
        (Res.ok s, { c with heap := h, stack := c.stack.set i (Value.string s) }, w1)
      | (Res.throw e, h, w1) => (Res.throw e, { c with heap := h }, w1)
      | (Res.exit code, h, w1) => (Res.exit code, { c with heap := h }, w1)
      | (Res.fault, h, w1) => (Res.fault, { c with heap := h }, w1)

/-- What a protected ToString leaves on the stack top: the string on success,
the thrown value otherwise.  Protection catches errors only: `exit` and a
memory fault inside the coercion end the process. -/
def safeCoerce (E : Engine) (host : Host E) (id : Nat) (h : E.Heap) (v : Value)
    (w : World E) : Res Value × E.Heap × World E :=
  match coerce E host id h v w with
  | (Res.ok s, h1, w1) => (Res.ok (Value.string s), h1, w1)
  | (Res.throw e, h1, w1) => (Res.ok e, h1, w1)
  | (Res.exit code, h1, w1) => (Res.exit code, h1, w1)
  | (Res.fault, h1, w1) => (Res.fault, h1, w1)

/-- The call `duk_safe_to_string(c, idx)`: ToString in protected mode.  When the
coercion throws, the thrown value is coerced once more; when that does not
give a string either, the result is the string "Error".  The only error left
is the API error on an invalid index. -/
def duk_safe_to_string (E : Engine) (host : Host E) (c : Inst E) (idx : Int) (w : World E) :
    Res String × Inst E × World E :=
  match normIdx c.stack.length idx with
  | none => (Res.throw E.apiError, c, w)
  | some i =>
    match c.stack.get? i with
    | none => (Res.throw E.apiError, c, w)
    | some v =>
      match safeCoerce E host c.id c.heap v w with
      | (Res.ok (Value.string s), h1, w1) =>
        (Res.ok s, { c with heap := h1, stack := c.stack.set i (Value.string s) }, w1)
      | (Res.ok e1, h1, w1) =>
        match safeCoerce E host c.id h1 e1 w1 with
        | (Res.ok (Value.string s), h2, w2) =>
          (Res.ok s, { c with heap := h2, stack := c.stack.set i (Value.string s) }, w2)
        | (Res.ok _, h2, w2) =>
          (Res.ok "Error",
            { c with heap := h2, stack := c.stack.set i (Value.string "Error") }, w2)
        | (Res.throw e, h2, w2) => (Res.throw e, { c with heap := h2 }, w2)
        | (Res.exit code, h2, w2) => (Res.exit code, { c with heap := h2 }, w2)
        | (Res.fault, h2, w2) => (Res.fault, { c with heap := h2 }, w2)
      | (Res.throw e, h1, w1) => (Res.throw e, { c with heap := h1 }, w1)
      | (Res.exit code, h1, w1) => (Res.exit code, { c with heap := h1 }, w1)
      | (Res.fault, h1, w1) => (Res.fault, { c with heap := h1 }, w1)

/-- The call `duk_get_string(c, idx)`: a pointer to the string at `idx`, `NULL` when the
value there is not a string or the index is invalid. -/
def duk_get_string {E : Engine} (c : Inst E) (idx : Int) : Option String :=
  match normIdx c.stack.length idx with
  | none => none
  | some i =>
    match c.stack.get? i with
    | some (Value.string s) => some s
    | _ => none

/-- The call `duk_pop(c)`: removes the top value. -/
def duk_pop {E : Engine} (c : Inst E) : Inst E :=
  { c with stack := c.stack.dropLast }

/-- Coerces the values of a list in order, left to right, threading the heap
and the process state; stops at the first coercion that does not give a
string. -/
def coerceAll (E : Engine) (host : Host E) (id : Nat) (h : E.Heap) :
    List Value → World E → Res (List String) × E.Heap × World E
  | [], w => (Res.ok [], h, w)
  | v :: vs, w =>
    match coerce E host id h v w with
    | (Res.throw e, h1, w1) => (Res.throw e, h1, w1)
    | (Res.exit code, h1, w1) => (Res.exit code, h1, w1)
    | (Res.fault, h1, w1) => (Res.fault, h1, w1)
    | (Res.ok s, h1, w1) =>
      match coerceAll E host id h1 vs w1 with
      | (Res.ok ss, h2, w2) => (Res.ok (s :: ss), h2, w2)
      | r => r

/-- The call `duk_join(c, count)`: replaces the separator and the `count` values above
it by the values joined with the separator between them, coercing the
separator first and then each value with ToString.  With `count = 0` the
empty string is pushed; a negative `count`, or one larger than the stack
allows, is an API error. -/
def duk_join (E : Engine) (host : Host E) (c : Inst E) (count : Int) (w : World E) :
    Res Unit × Inst E × World E :=
  if count < 0 then (Res.throw E.apiError, c, w)
  else if count = 0 then (Res.ok (), { c with stack := c.stack ++ [Value.string ""] }, w)
  else if (c.stack.length : Int) < count + 1 then (Res.throw E.apiError, c, w)
  else
    let base := c.stack.take (c.stack.length - (count.toNat + 1))
    let top := c.stack.drop (c.stack.length - (count.toNat + 1))
    match coerceAll E host c.id c.heap top w with
    | (Res.ok (sep :: ss), h, w1) =>
      (Res.ok (),
        { c with heap := h, stack := base ++ [Value.string (sep.intercalate ss)] }, w1)
    | (Res.ok [], h, w1) => (Res.throw E.apiError, { c with heap := h }, w1)
    | (Res.throw e, h, w1) => (Res.throw e, { c with heap := h }, w1)
    | (Res.exit code, h, w1) => (Res.exit code, { c with heap := h }, w1)
    | (Res.fault, h, w1) => (Res.fault, { c with heap := h }, w1)

/-- Logs the evaluation of `src` in the instance `id` whose heap is `h`. -/
def logEval {E : Engine} (id : Nat) (h : E.Heap) (src : String) (w : World E) : World E :=
  { w with trace := w.trace ++ [Event.eval id h src] }

/-- The call `duk_eval(c)`: pops the source text from the stack top, evaluates it and
pushes the result; throws what the script throws.  A top value that is not a
string is an API error. -/
def duk_eval (E : Engine) (host : Host E) (c : Inst E) (w : World E) :
    Res Unit × Inst E × World E :=
  match c.stack.getLast? with
  | some (Value.string src) =>
    let w := logEval c.id c.heap src w
    match runScript E host c.id (E.eval c.heap src) w with
    | (Res.ok (Except.ok v), h, w1) =>
      (Res.ok (), { c with heap := h, stack := c.stack.dropLast ++ [v] }, w1)
    | (Res.ok (Except.error e), h, w1) =>
      (Res.throw e, { c with heap := h, stack := c.stack.dropLast }, w1)
    | (Res.throw e, h, w1) => (Res.throw e, { c with heap := h, stack := c.stack.dropLast }, w1)
    | (Res.exit code, h, w1) => (Res.exit code, { c with heap := h }, w1)
    | (Res.fault, h, w1) => (Res.fault, { c with heap := h }, w1)
  | _ => (Res.throw E.apiError, c, w)

/-- The call `duk_safe_call(c, func, NULL, 1, 1)`: runs `func` in protected mode in the
caller's value stack frame, the top value being its argument.  `func` says
how many values on the stack top it returns; afterwards the stack holds one
value from the argument's index on: the first return value (`undefined` when
there is none) with `DUK_EXEC_SUCCESS`, or the thrown error with
`DUK_EXEC_ERROR`.  `exit` and a memory fault inside `func` end the process. -/
def duk_safe_call (E : Engine) (func : CFunction E) (c : Inst E) (w : World E) :
    Res Int × Inst E × World E :=
  match c.stack.getLast? with
  | none => (Res.throw E.apiError, c, w)
  | some _ =>
    let base := c.stack.length - 1
    match func c w with
    | (Res.ok rc, c1, w1) =>
      if rc < 0 then
        (Res.ok DUK_EXEC_ERROR, { c1 with stack := c1.stack.take base ++ [E.apiError] }, w1)
      else
        let below := c1.stack.take (c1.stack.length - rc.toNat)
        let rets := c1.stack.drop (c1.stack.length - rc.toNat)
        (Res.ok DUK_EXEC_SUCCESS,
          { c1 with stack := below.take base ++ [rets.head?.getD Value.undefined] }, w1)
    | (Res.throw e, c1, w1) =>
      (Res.ok DUK_EXEC_ERROR, { c1 with stack := c1.stack.take base ++ [e] }, w1)
    | (Res.exit code, c1, w1) => (Res.exit code, c1, w1)
    | (Res.fault, c1, w1) => (Res.fault, c1, w1)

/-- The call `duk_peval(c)`: `duk_eval` in protected mode; the result or the error is
left on the stack top and the return code tells which. -/
def duk_peval (E : Engine) (host : Host E) (c : Inst E)
    (w : World E) : Res Int × Inst E × World E :=
  match duk_eval E host c w with
  | (Res.ok _, c1, w1) => (Res.ok DUK_EXEC_SUCCESS, c1, w1)
  | (Res.throw e, c1, w1) => (Res.ok DUK_EXEC_ERROR, { c1 with stack := c1.stack ++ [e] }, w1)
  | (Res.exit code, c1, w1) => (Res.exit code, c1, w1)
  | (Res.fault, c1, w1) => (Res.fault, c1, w1)

/-- The call `duk_peval_string(c, src)`: pushes the C string `src` and evaluates it in
protected mode. -/
def duk_peval_string (E : Engine) (host : Host E) (c : Inst E)
    (src : String) (w : World E) : Res Int × Inst E × World E :=
  duk_peval E host (duk_push_string c (some src)) w

/-! ## The C functions of `demo.c`

A C function that coerces one of its arguments runs script code of the
calling instance; `host` gives the C functions that script code can call. -/

/-- The store `buffer[idx] = b`: `none` when `idx` is outside the buffer. -/
def writeByte (buffer : List Char) (idx : Int) (b : Char) : Option (List Char) :=
  if 0 ≤ idx ∧ idx < buffer.length then some (buffer.set idx.toNat b) else none

/-- The function `readFile` (lines 21-50).  The result is the buffer the C function
returns: `length` bytes of the file with the last one overwritten by NUL.
The store of the NUL outside the buffer is a memory fault. -/
def readFile {E : Engine} (filename : String) (w : World E) : Res String × World E :=
  -- fprintf(stderr, "reading '%s'\n", filename);
  let w := fprintf_stderr w ("reading '" ++ cstr filename ++ "'\n")
  -- FILE * f = fopen(filename, "rb");  if (f) ...
  match fopen w (cstr filename) with
  | some contents =>
    -- fseek; length = ftell(f); fseek; buffer = malloc(length);
    let length : Int := contents.length
    -- long int n = fread(buffer, 1, length, f);  fclose(f);
    let buffer := contents.data
    -- buffer[length-1] = 0;
    match writeByte buffer (length - 1) NUL with
    | none => (Res.fault, w)
    | some buffer =>
      -- fprintf(stderr, "read %ld bytes from '%s'\n", length, filename);
      let w := fprintf_stderr w
        ("read " ++ toString length ++ " bytes from '" ++ cstr filename ++ "'\n")
      -- return buffer;
      (Res.ok (String.mk buffer), w)
  | none =>
    -- fprintf(stderr, "couldn't read '%s'\n", filename);  exit(1);
    let w := fprintf_stderr w ("couldn't read '" ++ cstr filename ++ "'\n")
    exit 1 w

/-- The function `native_print` (lines 52-58). -/
def native_print (E : Engine) (host : Host E) : CFunction E := fun ctx w =>
  -- duk_push_string(ctx, " ");
  let ctx := duk_push_string ctx (some " ")
  -- duk_insert(ctx, 0);
  match duk_insert ctx 0 with
  | Except.error e => (Res.throw e, ctx, w)
  | Except.ok ctx =>
    -- duk_join(ctx, duk_get_top(ctx) - 1);
    match duk_join E host ctx (duk_get_top ctx - 1) w with
    | (Res.throw e, ctx, w) => (Res.throw e, ctx, w)
    | (Res.exit code, ctx, w) => (Res.exit code, ctx, w)
    | (Res.fault, ctx, w) => (Res.fault, ctx, w)
    | (Res.ok _, ctx, w) =>
      -- printf("%s\n", duk_to_string(ctx, -1));
      match duk_to_string E host ctx (-1) w with
      | (Res.throw e, ctx, w) => (Res.throw e, ctx, w)
      | (Res.exit code, ctx, w) => (Res.exit code, ctx, w)
      | (Res.fault, ctx, w) => (Res.fault, ctx, w)
      | (Res.ok s, ctx, w) =>
        let w := printf w (cstr s ++ "\n")
        -- return 0;
        (Res.ok 0, ctx, w)

/-- The function `eval_raw` (lines 60-64). -/
def eval_raw (E : Engine) (host : Host E) : CFunction E := fun ctx w =>
  -- duk_eval(ctx);
  match duk_eval E host ctx w with
  -- return 1;
  | (Res.ok _, ctx, w) => (Res.ok 1, ctx, w)
  | (Res.throw e, ctx, w) => (Res.throw e, ctx, w)
  | (Res.exit code, ctx, w) => (Res.exit code, ctx, w)
  | (Res.fault, ctx, w) => (Res.fault, ctx, w)

/-- The function `tostring_raw` (lines 66-70). -/
def tostring_raw (E : Engine) (host : Host E) : CFunction E := fun ctx w =>
  -- duk_to_string(ctx, -1);
  match duk_to_string E host ctx (-1) w with
  | (Res.throw e, ctx, w) => (Res.throw e, ctx, w)
  | (Res.exit code, ctx, w) => (Res.exit code, ctx, w)
  | (Res.fault, ctx, w) => (Res.fault, ctx, w)
  -- return 1;
  | (Res.ok _, ctx, w) => (Res.ok 1, ctx, w)

/-- The function `usage_exit` (lines 72-76). -/
def usage_exit {E : Engine} {α : Type} (w : World E) : Res α × World E :=
  -- fprintf(stderr, "Usage: eval <expression> [<expression>] ...\n");
  let w := fprintf_stderr w "Usage: eval <expression> [<expression>] ...\n"
  -- exit(1);
  exit 1 w

/-- The function `strdup` (lines 78-90): `NULL` for `NULL`, else a copy of the C
string. -/
def strdup (s : Option String) : Option String :=
  match s with
  -- if (s == NULL) return NULL;
  | none => none
  -- n = strlen(s) + 1;  acc = malloc(n);  return memcpy(acc, s, n);
  | some s => some (cstr s)

/-- The C functions script code can call in an instance in which none was
registered: none. -/
def noNatives (E : Engine) : Host E := fun _ => none

/-- The function `sandbox` (lines 92-111).  The argument is coerced in the calling
instance `ctx` (script code there calls `host`); nothing is registered in
`box`, so script code of `box` runs with `noNatives`. -/
def sandbox (E : Engine) (host : Host E) : CFunction E := fun ctx w =>
  -- const char *src = duk_to_string(ctx, 0);
  match duk_to_string E host ctx 0 w with
  | (Res.throw e, ctx, w) => (Res.throw e, ctx, w)
  | (Res.exit code, ctx, w) => (Res.exit code, ctx, w)
  | (Res.fault, ctx, w) => (Res.fault, ctx, w)
  | (Res.ok src, ctx, w) =>
    -- duk_context *box = duk_create_heap_default();
    match duk_create_heap_default E w with
    | (box, w) =>
      -- duk_push_string(box, src);
      let box := duk_push_string box (some src)
      -- duk_ret_t rc = duk_peval(box);
      match duk_peval E (noNatives E) box w with
      | (Res.throw e, _, w) => (Res.throw e, ctx, w)
      | (Res.exit code, _, w) => (Res.exit code, ctx, w)
      | (Res.fault, _, w) => (Res.fault, ctx, w)
      | (Res.ok rc, box, w) =>
        -- const char *result = duk_safe_to_string(box, -1);
        match duk_safe_to_string E (noNatives E) box (-1) w with
        | (Res.throw e, _, w) => (Res.throw e, ctx, w)
        | (Res.exit code, _, w) => (Res.exit code, ctx, w)
        | (Res.fault, _, w) => (Res.fault, ctx, w)
        | (Res.ok result, box, w) =>
          -- result = strdup(result);
          let result := strdup (some result)
          -- if (rc != DUK_EXEC_SUCCESS) fprintf(stderr, "warning: ...", rc, result, src);
          let w :=
            if rc ≠ DUK_EXEC_SUCCESS then
              fprintf_stderr w
                ("warning: sandbox returned non-zero rc=" ++ toString rc ++ " result="
                  ++ result.getD "(null)" ++ " code:\n" ++ cstr src ++ "\n")
            else w
          -- duk_destroy_heap(box);
          let w := duk_destroy_heap box w
          -- duk_push_string(ctx, result);
          let ctx := duk_push_string ctx result
          -- return 1;
          (Res.ok 1, ctx, w)

/-- The function `readfile` (lines 113-119). -/
def readfile (E : Engine) (host : Host E) : CFunction E := fun ctx w =>
  -- const char *filename = duk_to_string(ctx, 0);
  match duk_to_string E host ctx 0 w with
  | (Res.throw e, ctx, w) => (Res.throw e, ctx, w)
  | (Res.exit code, ctx, w) => (Res.exit code, ctx, w)
  | (Res.fault, ctx, w) => (Res.fault, ctx, w)
  | (Res.ok filename, ctx, w) =>
    -- char *buf = readFile(filename);
    match readFile filename w with
    | (Res.throw e, w) => (Res.throw e, ctx, w)
    | (Res.exit code, w) => (Res.exit code, ctx, w)
    | (Res.fault, w) => (Res.fault, ctx, w)
    | (Res.ok buf, w) =>
      -- duk_push_string(ctx, buf);
      let ctx := duk_push_string ctx (some buf)
      -- return 1;
      (Res.ok 1, ctx, w)

/-- The C functions `main` registers (lines 132-139), by function pointer, as
script code can call them when `depth` more nested native calls are allowed:
script code a C function starts (by coercing an argument) can call them with
one less. -/
def natives (E : Engine) : Nat → Host E
  | 0 => fun _ => none
  | depth + 1 => fun f =>
    match f with
    | Native.native_print => some (native_print E (natives E depth))
    | Native.sandbox => some (sandbox E (natives E depth))
    | Native.readfile => some (readfile E (natives E depth))

/-- The body of the `for` loop of `main` (lines 155-161), the per-file
evaluation the specification calls `evaluateFile`.  Script code of the
top-level instance calls `host`. -/
def evaluateFile (E : Engine) (host : Host E) (path : String) (ctx : Inst E) (w : World E) :
    Res Unit × Inst E × World E :=
  -- char *buf = readFile(argv[i]);
  match readFile path w with
  | (Res.throw e, w) => (Res.throw e, ctx, w)
  | (Res.exit code, w) => (Res.exit code, ctx, w)
  | (Res.fault, w) => (Res.fault, ctx, w)
  | (Res.ok buf, w) =>
    -- duk_push_string(ctx->dctx, buf);
    let ctx := duk_push_string ctx (some buf)
    -- duk_safe_call(ctx->dctx, eval_raw, NULL, 1, 1);
    match duk_safe_call E (eval_raw E host) ctx w with
    | (Res.throw e, ctx, w) => (Res.throw e, ctx, w)
    | (Res.exit code, ctx, w) => (Res.exit code, ctx, w)
    | (Res.fault, ctx, w) => (Res.fault, ctx, w)
    | (Res.ok _, ctx, w) =>
      -- duk_safe_call(ctx->dctx, tostring_raw, NULL, 1, 1);
      match duk_safe_call E (tostring_raw E host) ctx w with
      | (Res.throw e, ctx, w) => (Res.throw e, ctx, w)
      | (Res.exit code, ctx, w) => (Res.exit code, ctx, w)
      | (Res.fault, ctx, w) => (Res.fault, ctx, w)
      | (Res.ok _, ctx, w) =>
        -- res = duk_get_string(ctx->dctx, -1);
        let res := duk_get_string ctx (-1)
        -- printf("%s\n", res ? res : "null");
        let w := printf w ((match res with | some r => cstr r | none => "null") ++ "\n")
        -- duk_pop(ctx->dctx);
        let ctx := duk_pop ctx
        (Res.ok (), ctx, w)

/-- The `for` loop of `main` (lines 153-162) over the remaining arguments. -/
def main_loop (E : Engine) (host : Host E) :
    List String → Inst E → World E → Res Unit × Inst E × World E
  | [], ctx, w => (Res.ok (), ctx, w)
  | path :: rest, ctx, w =>
    match evaluateFile E host path ctx w with
    | (Res.ok _, ctx, w) => main_loop E host rest ctx w
    | r => r

/-- The registration `duk_push_c_function(c, f, nargs); duk_put_global_string(c, name)`. -/
def register {E : Engine} (c : Inst E) (f : Native) (nargs : Int) (name : String) :
    Except Value (Inst E) :=
  duk_put_global_string (duk_push_c_function c f nargs) name

/-- The function `main` (lines 121-168).  `sheens_js` is the bootstrap source that
`sheens_js()` of `sheens_js.h` returns; `argv` starts with the program name.
Script code of the top-level instance calls the registered C functions with
the engine's full native call allowance.  An error thrown outside every
protected call is not caught by anything. -/
def main (E : Engine) (sheens_js : String) (argv : List String) (w : World E) :
    Res Int × World E :=
  -- if (argc < 2) usage_exit();
  if argv.length < 2 then usage_exit w
  else
    -- ctx = make_ctx();  ctx->dctx = duk_create_heap_default();
    match duk_create_heap_default E w with
    | (dctx, w) =>
      -- duk_push_c_function(ctx->dctx, native_print, DUK_VARARGS);
      -- duk_put_global_string(ctx->dctx, "print");
      match register dctx Native.native_print DUK_VARARGS "print" with
      | Except.error e => (Res.throw e, w)
      | Except.ok dctx =>
        -- duk_push_c_function(ctx->dctx, sandbox, 1);
        -- duk_put_global_string(ctx->dctx, "sandbox");
        match register dctx Native.sandbox 1 "sandbox" with
        | Except.error e => (Res.throw e, w)
        | Except.ok dctx =>
          -- duk_push_c_function(ctx->dctx, readfile, 1);
          -- duk_put_global_string(ctx->dctx, "readfile");
          match register dctx Native.readfile 1 "readfile" with
          | Except.error e => (Res.throw e, w)
          | Except.ok dctx =>
            -- char *src = sheens_js();  int rc = duk_peval_string(ctx->dctx, src);
            match duk_peval_string E (natives E E.reclimit) dctx sheens_js w with
            | (Res.throw e, _, w) => (Res.throw e, w)
            | (Res.exit code, _, w) => (Res.exit code, w)
            | (Res.fault, _, w) => (Res.fault, w)
            | (Res.ok rc, dctx, w) =>
              -- if (rc != 0) exit(rc);
              if rc ≠ 0 then exit rc w
              else
                -- for (i = 1; i < argc; i++) ...
                match main_loop E (natives E E.reclimit) argv.tail dctx w with
                | (Res.throw e, _, w) => (Res.throw e, w)
                | (Res.exit code, _, w) => (Res.exit code, w)
                | (Res.fault, _, w) => (Res.fault, w)
                | (Res.ok _, dctx, w) =>
                  -- duk_destroy_heap(ctx->dctx);
                  let w := duk_destroy_heap dctx w
                  -- return 0;
                  (Res.ok 0, w)

/-! ## A small concrete engine -/

/-- An object of the small engine: an error with its message, or an object
whose `toString` method calls a C function with one argument and returns
what the call returns (`{toString: function () { return f(arg) }}`). -/
inductive MiniObj where
  | error (msg : String)
  | deferred (f : Native) (nargs : Int) (arg : Value)
  deriving DecidableEq, Repr

/-- The heap of the small engine: the global bindings and the objects created
so far (`Value.object i` is the `i`-th of them). -/
structure MiniHeap where
  globals : List (String × Value)
  objects : List MiniObj
  deriving DecidableEq, Repr

/-- Is the text a non-empty run of decimal digits? -/
def isDigits (cs : List Char) : Bool := !cs.isEmpty && cs.all Char.isDigit

/-- The number a run of decimal digits writes. -/
def digitsToNat (cs : List Char) : Nat := cs.foldl (fun n c => 10 * n + (c.toNat - 48)) 0

/-- Throws a new error object with the given message. -/
def miniThrow (h : MiniHeap) (msg : String) : MiniHeap × Value :=
  ({ h with objects := h.objects ++ [MiniObj.error msg] }, Value.object h.objects.length)

/-- The string form of a primitive value; `none` for an object. -/
def miniPrim : Value → Option String
  | Value.undefined => some "undefined"
  | Value.null => some "null"
  | Value.number n => some (toString n)
  | Value.string s => some s
  | Value.cfunction _ _ => some "function () [native code]"
  | Value.object _ => none

/-- The TypeError of a coercion that finds no string form. -/
def miniTypeError (h : MiniHeap) : Script MiniHeap String :=
  Script.done (miniThrow h "TypeError: coercion to string failed").1
    (Except.error (miniThrow h "TypeError: coercion to string failed").2)

/-- ToString of the small engine.  An error object gives its message; an
object with a `toString` method runs it, which calls a C function; any other
object stands for one whose `toString` method throws. -/
def miniToString (h : MiniHeap) (v : Value) : Script MiniHeap String :=
  match v with
  | Value.object ref =>
    match h.objects.get? ref with
    | some (MiniObj.error msg) => Script.done h (Except.ok msg)
    | some (MiniObj.deferred f nargs arg) =>
      Script.call h f nargs [arg] (fun h1 r =>
        match r with
        | Except.error e => Script.done h1 (Except.error e)
        | Except.ok v1 =>
          match miniPrim v1 with
          | some s => Script.done h1 (Except.ok s)
          | none => miniTypeError h1)
    | none => miniTypeError h
  | v =>
    match miniPrim v with
    | some s => Script.done h (Except.ok s)
    | none => miniTypeError h

/-- An atom of the small language: a number, a double-quoted string without
escapes, or a bound global name. -/
def miniAtom (h : MiniHeap) (cs : List Char) : Option Value :=
  if isDigits cs then some (Value.number (digitsToNat cs))
  else
    match cs with
    | q :: rest =>
      if q = Char.ofNat 34 ∧ rest.getLast? = some (Char.ofNat 34) then
        some (Value.string (String.mk rest.dropLast))
      else h.globals.lookup (String.mk cs)
    | [] => none

/-- A call of the small language: `f(a)` or `f()`, with `f` bound to a C
function and `a` an atom. -/
def miniCall (h : MiniHeap) (cs : List Char) : Option (Native × Int × List Value) :=
  let name := cs.takeWhile (fun c => c != Char.ofNat 40)
  let rest := (cs.dropWhile (fun c => c != Char.ofNat 40)).drop 1
  match h.globals.lookup (String.mk name), rest.getLast? with
  | some (Value.cfunction f nargs), some c =>
    if c = Char.ofNat 41 then
      if rest.dropLast.isEmpty then some (f, nargs, [])
      else
        match miniAtom h rest.dropLast with
        | some v => some (f, nargs, [v])
        | none => none
    else none
  | _, _ => none

/-- A value expression of the small language: an atom, or `lazy f(a)`, which
creates the object `{toString: function () { return f(a) }}`. -/
def miniValue (h : MiniHeap) (cs : List Char) : Option (MiniHeap × Value) :=
  if ("lazy ".data).isPrefixOf cs then
    match miniCall h (cs.drop 5) with
    | some (f, nargs, [arg]) =>
      some ({ h with objects := h.objects ++ [MiniObj.deferred f nargs arg] },
        Value.object h.objects.length)
    | _ => none
  else
    match miniAtom h cs with
    | some v => some (h, v)
    | none => none

/-- Evaluation in the small engine.  The empty program gives `undefined`; a
value expression gives its value; `throw` before a value expression throws
that value; a call `f(a)` calls the C function; every other text throws a
ReferenceError naming the text. -/
def miniEval (h : MiniHeap) (src : String) : Script MiniHeap Value :=
  let bad := miniThrow h ("ReferenceError: identifier '" ++ src ++ "' undefined")
  if src.data.isEmpty then Script.done h (Except.ok Value.undefined)
  else if ("throw ".data).isPrefixOf src.data then
    match miniValue h (src.data.drop 6) with
    | some (h1, v) => Script.done h1 (Except.error v)
    | none => Script.done bad.1 (Except.error bad.2)
  else
    match miniValue h src.data with
    | some (h1, v) => Script.done h1 (Except.ok v)
    | none =>
      match miniCall h src.data with
      | some (f, nargs, args) => Script.call h f nargs args (fun h1 r => Script.done h1 r)
      | none => Script.done bad.1 (Except.error bad.2)

/-- The small engine.  Its default heap binds `undefined` and nothing else;
it allows four nested native calls. -/
def miniEngine : Engine :=
  { Heap := MiniHeap
    fresh := { globals := [("undefined", Value.undefined)], objects := [] }
    toString := miniToString
    putGlobal := fun h k v => { h with globals := (k, v) :: h.globals }
    getGlobal := fun h k => h.globals.lookup k
    eval := miniEval
    apiError := Value.string "Error: invalid API call"
    reclimit := 4 }

/-! ## Specification-side functions -/

/-- The run of script code in an instance without registered C functions: no
host call can be served, so the run is a function of the script alone. -/
def pureRun (E : Engine) {α : Type} : Script E.Heap α → Except Value α × E.Heap
  | Script.done h r => (r, h)
  | Script.call h _ _ _ k => pureRun E (k h (Except.error E.apiError))

/-- ToString in an instance without registered C functions. -/
def pureCoerce (E : Engine) (h : E.Heap) (v : Value) : Except Value String × E.Heap :=
  match v with
  | Value.string s => (Except.ok s, h)
  | v => pureRun E (E.toString h v)

/-- What a protected ToString leaves on the stack top in an instance without
registered C functions. -/
def pureSafeCoerce (E : Engine) (h : E.Heap) (v : Value) : Value × E.Heap :=
  match pureCoerce E h v with
  | (Except.ok s, h1) => (Value.string s, h1)
  | (Except.error e, h1) => (e, h1)

/-- The string `duk_safe_to_string` yields for the value `v` in heap `h` of
an instance without registered C functions. -/
def safeString (E : Engine) (h : E.Heap) (v : Value) : String :=
  match pureSafeCoerce E h v with
  | (Value.string s, _) => s
  | (e1, h1) =>
    match pureSafeCoerce E h1 e1 with
    | (Value.string s, _) => s
    | _ => "Error"

/-- What the evaluation of `src` in a default instance leaves on the stack
top (the value, or the thrown error), with the heap it leaves and the return
code of `duk_peval`. -/
def boxOutcome (E : Engine) (src : String) : Value × E.Heap × Int :=
  match pureRun E (E.eval E.fresh src) with
  | (Except.ok v, h) => (v, h, DUK_EXEC_SUCCESS)
  | (Except.error e, h) => (e, h, DUK_EXEC_ERROR)

/-- The string `sandbox` hands back for the source text `src`. -/
def sandboxResult (E : Engine) (src : String) : String :=
  cstr (safeString E (boxOutcome E src).2.1 (boxOutcome E src).1)

/-- The warning `sandbox` writes to standard error for the source text `src`:
nothing when the evaluation succeeds. -/
def sandboxWarning (E : Engine) (src : String) : String :=
  if (boxOutcome E src).2.2 ≠ DUK_EXEC_SUCCESS then
    "warning: sandbox returned non-zero rc=" ++ toString (boxOutcome E src).2.2 ++ " result="
      ++ sandboxResult E src ++ " code:\n" ++ src ++ "\n"
  else ""

/-- The activation Duktape sets up for a call of a C function registered with
`nargs` arguments, in instance `c`. -/
def activation {E : Engine} (c : Inst E) (nargs : Int) (args : List Value) : Inst E :=
  { c with stack := adjustArgs nargs args }

/-- What the calling script gets from a finished C function: its return value
or the error it threw; `none` when the process ended inside it. -/
def returned (E : Engine) (r : Res Int × Inst E × World E) : Option (Except Value Value) :=
  match r.1 with
  | Res.ok rc => some (returnValue E rc r.2.1.stack)
  | Res.throw e => some (Except.error e)
  | _ => none

/-- The names under which `main` registers its C functions. -/
def hostNames : List String := ["print", "sandbox", "readfile"]

/-- Modelled from the spec: "a clean default global namespace - it does NOT
inherit print, sandbox, or readfile".  The default heap is Duktape's, which
is not in the sources. -/
def CleanDefault (E : Engine) : Prop :=
  ∀ n ∈ hostNames, E.getGlobal E.fresh n = none

/-- Modelled from the spec: referencing an identifier that has no binding
"must fail with a reference/undefined-identifier error".  The evaluation is
Duktape's, which is not in the sources. -/
def UnboundFails (E : Engine) : Prop :=
  ∀ (h : E.Heap) (n : String), n ∈ hostNames → E.getGlobal h n = none →
    ∃ h1 e, E.eval h n = Script.done h1 (Except.error e)

/-- What the loop of `main` prints for the value it finds on the stack top:
a string as a C string, anything else as `null`. -/
def display (v : Value) : String :=
  match v with
  | Value.string s => cstr s
  | _ => "null"

/-- The frame condition of everything that runs between the creation and the
destruction of the top-level instance: handles are only added, the live
instances and the files are as before, the log only grows, and an instance
destroyed meanwhile is one created meanwhile. -/
def Keeps {E : Engine} (w w1 : World E) : Prop :=
  w.next ≤ w1.next ∧ w1.live = w.live ∧ w1.files = w.files ∧
    ∃ evs, w1.trace = w.trace ++ evs ∧ ∀ id, Event.destroy id ∈ evs → w.next ≤ id

/-- Every C function of the table keeps the frame condition. -/
def HostKeeps {E : Engine} (host : Host E) : Prop :=
  ∀ (f : Native) (body : CFunction E), host f = some body →
    ∀ (c : Inst E) (w : World E), Keeps w (body c w).2.2

/-- The value a protected call leaves on the stack top for a completion: the
value, or the thrown error. -/
def merge (r : Except Value Value) : Value :=
  match r with
  | Except.ok v => v
  | Except.error e => e

/-- What `print` does, by the outcome of converting its arguments to strings
in order (the strings, or the first error; with the process state the
conversions leave): when all are converted it writes the space-joined text
as a C string and a newline and returns nothing (return code 0); otherwise
it writes nothing itself and ends as the conversion ended. -/
def printSpec {E : Engine} (r : Res (List String) × E.Heap × World E) : Res Int × World E :=
  match r with
  | (Res.ok ss, _, w1) => (Res.ok 0, printf w1 (cstr (" ".intercalate ss) ++ "\n"))
  | (Res.throw e, _, w1) => (Res.throw e, w1)
  | (Res.exit code, _, w1) => (Res.exit code, w1)
  | (Res.fault, _, w1) => (Res.fault, w1)

/-- What the per-file evaluation does with the value `x` the protected
evaluation left on the stack, by the outcome `r` of the protected ToString
of `x`: the string is printed; when the coercion throws, the thrown value is
printed if it is a string and `null` otherwise; `exit` and a memory fault
inside the coercion end the process. -/
def convOutcome {E : Engine} (ctx : Inst E) (x : Value) (r : Res String × E.Heap × World E) :
    Res Unit × Inst E × World E :=
  match r with
  | (Res.ok s, h2, w3) => (Res.ok (), { ctx with heap := h2 }, printf w3 (cstr s ++ "\n"))
  | (Res.throw e2, h2, w3) =>
    (Res.ok (), { ctx with heap := h2 }, printf w3 (display e2 ++ "\n"))
  | (Res.exit code, h2, w3) =>
    (Res.exit code, { ctx with heap := h2, stack := ctx.stack ++ [x] }, w3)
  | (Res.fault, h2, w3) => (Res.fault, { ctx with heap := h2, stack := ctx.stack ++ [x] }, w3)

/-- What the per-file evaluation does once the file is read, by the outcome
`r` of running the script (with the heap `h` and the world `w2` it leaves):
a completion, normal or thrown, is converted to a string in protected mode
and printed; `exit` and a memory fault end the run, the source `src` still on
the stack. -/
def fileOutcome (E : Engine) (host : Host E) (ctx : Inst E) (src : String)
    (r : Res (Except Value Value)) (h : E.Heap) (w2 : World E) :
    Res Unit × Inst E × World E :=
  match r with
  | Res.ok c => convOutcome ctx (merge c) (coerce E host ctx.id h (merge c) w2)
  | Res.throw e => convOutcome ctx e (coerce E host ctx.id h e w2)
  | Res.exit code =>
    (Res.exit code, { ctx with heap := h, stack := ctx.stack ++ [Value.string src] }, w2)
  | Res.fault =>
    (Res.fault, { ctx with heap := h, stack := ctx.stack ++ [Value.string src] }, w2)

/-! ## Concrete inputs for the small engine -/

/-- An instance of the small engine with handle 0, the default heap and the
given value stack. -/
def miniInst (stack : List Value) : Inst miniEngine :=
  { id := 0, heap := miniEngine.fresh, stack := stack }

/-- The files of the examples. -/
def miniFiles : List (String × String) :=
  [("a.js", "42"), ("b.js", "42\n"), ("c.js", "oops\n"), ("e.js", ""),
   ("d.js", "throw lazy readfile(\"nope\")\n"), ("p.js", "lazy print(\"x\")\n")]

/-- The process state of the examples at the start of `main`. -/
def miniWorld : World miniEngine := World.init miniEngine miniFiles

/-- The process state of the examples once `main` has created the top-level
instance (handle 0). -/
def topWorld : World miniEngine := (duk_create_heap_default miniEngine miniWorld).2

/-- The heap of the top-level instance once `main` has registered `print`,
`sandbox` and `readfile` in it. -/
def topHeap : MiniHeap :=
  miniEngine.putGlobal
    (miniEngine.putGlobal
      (miniEngine.putGlobal miniEngine.fresh "print"
        (Value.cfunction Native.native_print DUK_VARARGS))
      "sandbox" (Value.cfunction Native.sandbox 1))
    "readfile" (Value.cfunction Native.readfile 1)

/-- The top-level instance of the examples, as `main` sets it up, with the
given value stack. -/
def topInst (stack : List Value) : Inst miniEngine :=
  { id := 0, heap := topHeap, stack := stack }

/-- An instance of the small engine whose heap holds the given objects. -/
def objInst (objects : List MiniObj) (stack : List Value) : Inst miniEngine :=
  { id := 0, heap := { globals := topHeap.globals, objects := objects }, stack := stack }

/-! ## Lemmas -/

theorem takeWhile_idem {α : Type} (p : α → Bool) (l : List α) :
    (l.takeWhile p).takeWhile p = l.takeWhile p := by
  induction l with
  | nil => rfl
  | cons a l ih =>
    by_cases h : p a = true
    · simp [List.takeWhile_cons, h, ih]
    · simp [List.takeWhile_cons, h]

theorem cstr_idem (s : String) : cstr (cstr s) = cstr s := by
  simp only [cstr, takeWhile_idem]

theorem runScript_noNatives (E : Engine) (id : Nat) {α : Type} (s : Script E.Heap α)
    (w : World E) :
    runScript E (noNatives E) id s w = (Res.ok (pureRun E s).1, (pureRun E s).2, w) := by
  induction s generalizing w with
  | done h r => rfl
  | call h f nargs args k ih => simp [runScript, noNatives, pureRun, ih]

theorem coerce_noNatives (E : Engine) (id : Nat) (h : E.Heap) (v : Value) (w : World E) :
    coerce E (noNatives E) id h v w
      = ((Res.ok (pureCoerce E h v).1).flat, (pureCoerce E h v).2, w) := by
  cases v <;> simp [coerce, pureCoerce, runScript_noNatives, Res.flat]

theorem safeCoerce_noNatives (E : Engine) (id : Nat) (h : E.Heap) (v : Value) (w : World E) :
    safeCoerce E (noNatives E) id h v w
      = (Res.ok (pureSafeCoerce E h v).1, (pureSafeCoerce E h v).2, w) := by
  simp only [safeCoerce, coerce_noNatives, pureSafeCoerce]
  rcases pureCoerce E h v with ⟨r, h1⟩
  cases r <;> rfl

theorem normIdx_top (n : Nat) : normIdx (n + 1) (-1) = some n := by
  simp [normIdx]

theorem normIdx_zero (n : Nat) : normIdx (n + 1) 0 = some 0 := by
  simp [normIdx]

theorem duk_safe_to_string_single (E : Engine) (id : Nat) (h : E.Heap) (v : Value) :
    ∃ h1, ∀ w : World E,
      duk_safe_to_string E (noNatives E) { id := id, heap := h, stack := [v] } (-1) w
        = (Res.ok (safeString E h v),
           { id := id, heap := h1, stack := [Value.string (safeString E h v)] }, w) := by
  have hn : normIdx 1 (-1) = some 0 := normIdx_top 0
  simp only [duk_safe_to_string, List.length_singleton, hn, List.get?_cons_zero, safeString,
    safeCoerce_noNatives]
  rcases pureSafeCoerce E h v with ⟨r1, g1⟩
  cases r1
  case string s => exact ⟨_, fun _ => rfl⟩
  all_goals
    dsimp only
    generalize pureSafeCoerce E g1 _ = q
    rcases q with ⟨r2, g2⟩
    cases r2 <;> exact ⟨_, fun _ => rfl⟩

theorem sandbox_throw (E : Engine) (host : Host E) (ctx ctx1 : Inst E) (w w0 : World E)
    (e : Value) (h : duk_to_string E host ctx 0 w = (Res.throw e, ctx1, w0)) :
    sandbox E host ctx w = (Res.throw e, ctx1, w0) := by
  simp only [sandbox, h]

theorem sandbox_exit (E : Engine) (host : Host E) (ctx ctx1 : Inst E) (w w0 : World E)
    (code : Int) (h : duk_to_string E host ctx 0 w = (Res.exit code, ctx1, w0)) :
    sandbox E host ctx w = (Res.exit code, ctx1, w0) := by
  simp only [sandbox, h]

theorem sandbox_fault (E : Engine) (host : Host E) (ctx ctx1 : Inst E) (w w0 : World E)
    (h : duk_to_string E host ctx 0 w = (Res.fault, ctx1, w0)) :
    sandbox E host ctx w = (Res.fault, ctx1, w0) := by
  simp only [sandbox, h]

theorem sandbox_ok (E : Engine) (host : Host E) (ctx ctx1 : Inst E) (w w0 : World E)
    (p : String) (h : duk_to_string E host ctx 0 w = (Res.ok p, ctx1, w0)) :
    sandbox E host ctx w =
      (Res.ok 1,
       { ctx1 with stack := ctx1.stack ++ [Value.string (sandboxResult E (cstr p))] },
       { w0 with err := w0.err ++ sandboxWarning E (cstr p), next := w0.next + 1,
                 trace := w0.trace ++ [Event.create w0.next,
                   Event.eval w0.next E.fresh (cstr p), Event.destroy w0.next] }) := by
  simp only [sandbox, h, duk_create_heap_default, duk_push_string, duk_peval, duk_eval,
    logEval, List.nil_append, List.getLast?_singleton, runScript_noNatives, sandboxResult,
    sandboxWarning, boxOutcome]
  rcases pureRun E (E.eval E.fresh (cstr p)) with ⟨r, g⟩
  cases r with
  | error e =>
    obtain ⟨h1, hs⟩ := duk_safe_to_string_single E w0.next g e
    simp [hs, strdup, duk_destroy_heap, fprintf_stderr, cstr_idem, DUK_EXEC_ERROR,
      DUK_EXEC_SUCCESS]
  | ok v =>
    obtain ⟨h1, hs⟩ := duk_safe_to_string_single E w0.next g v
    simp [hs, strdup, duk_destroy_heap, fprintf_stderr, cstr_idem, DUK_EXEC_ERROR,
      DUK_EXEC_SUCCESS]

theorem adjustArgs_one (v : Value) : adjustArgs 1 [v] = [v] := by
  simp [adjustArgs]

theorem duk_to_string_string (E : Engine) (host : Host E) (c : Inst E) (s : String)
    (rest : List Value) (w : World E) (hs : c.stack = Value.string s :: rest) :
    duk_to_string E host c 0 w = (Res.ok s, c, w) := by
  have hn : normIdx c.stack.length 0 = some 0 := by rw [hs]; exact normIdx_zero _
  cases c with
  | mk id heap stack =>
    simp only at hs
    subst hs
    simp only [List.length_cons] at hn
    simp [duk_to_string, hn, coerce]

theorem duk_to_string_string_arg (E : Engine) (host : Host E) (c : Inst E) (s : String)
    (w : World E) :
    duk_to_string E host (activation c 1 [Value.string s]) 0 w
      = (Res.ok s, activation c 1 [Value.string s], w) :=
  duk_to_string_string E host _ s [] w (by simp [activation, adjustArgs_one])

theorem returned_push (E : Engine) (c : Inst E) (v : Value) (w : World E) :
    returned E (Res.ok 1, { c with stack := c.stack ++ [v] }, w) = some (Except.ok v) := by
  simp [returned, returnValue]

theorem sandbox_string_arg (E : Engine) (host : Host E) (c : Inst E) (w : World E)
    (s : String) :
    returned E (sandbox E host (activation c 1 [Value.string s]) w)
      = some (Except.ok (Value.string (sandboxResult E (cstr s)))) := by
  rw [sandbox_ok E host _ _ w w s (duk_to_string_string_arg E host c s w), returned_push]

/-! ## The frame condition of everything `main` runs -/

theorem Keeps.refl {E : Engine} (w : World E) : Keeps w w :=
  ⟨le_refl _, rfl, rfl, [], by simp, by simp⟩

theorem Keeps.trans {E : Engine} {w w1 w2 : World E} (h1 : Keeps w w1) (h2 : Keeps w1 w2) :
    Keeps w w2 := by
  obtain ⟨n1, l1, f1, e1, t1, d1⟩ := h1
  obtain ⟨n2, l2, f2, e2, t2, d2⟩ := h2
  refine ⟨le_trans n1 n2, l2.trans l1, f2.trans f1, e1 ++ e2,
    by rw [t2, t1, List.append_assoc], ?_⟩
  intro id hid
  rcases List.mem_append.mp hid with h | h
  · exact d1 id h
  · exact le_trans n1 (d2 id h)

theorem keeps_same {E : Engine} {w w1 : World E} (hn : w1.next = w.next)
    (hl : w1.live = w.live) (hf : w1.files = w.files) (ht : w1.trace = w.trace) :
    Keeps w w1 :=
  ⟨by omega, hl, hf, [], by simp [ht], by simp⟩

theorem keeps_event {E : Engine} {w w1 : World E} (ev : Event E) (hn : w1.next = w.next)
    (hl : w1.live = w.live) (hf : w1.files = w.files) (ht : w1.trace = w.trace ++ [ev])
    (hev : ∀ id, Event.destroy id ≠ ev) : Keeps w w1 := by
  refine ⟨by omega, hl, hf, [ev], ht, ?_⟩
  intro id hid
  simp only [List.mem_singleton] at hid
  exact absurd hid (hev id)

theorem noNatives_keeps (E : Engine) : HostKeeps (noNatives E) := by
  intro f body hb
  cases hb

theorem runScript_keeps (E : Engine) (host : Host E) (hh : HostKeeps host) (id : Nat)
    {α : Type} (s : Script E.Heap α) (w : World E) :
    Keeps w (runScript E host id s w).2.2 := by
  induction s generalizing w with
  | done h r => exact Keeps.refl w
  | call h f nargs args k ih =>
    simp only [runScript]
    cases hb : host f with
    | none => exact ih _ _ w
    | some body =>
      have hk := hh f body hb { id := id, heap := h, stack := adjustArgs nargs args } w
      simp only []
      rcases hr : body { id := id, heap := h, stack := adjustArgs nargs args } w with ⟨r, c, w1⟩
      rw [hr] at hk
      cases r with
      | ok rc => exact Keeps.trans hk (ih _ _ w1)
      | throw e => exact Keeps.trans hk (ih _ _ w1)
      | exit code => exact hk
      | fault => exact hk

theorem coerce_keeps (E : Engine) (host : Host E) (hh : HostKeeps host) (id : Nat)
    (h : E.Heap) (v : Value) (w : World E) : Keeps w (coerce E host id h v w).2.2 := by
  cases v <;> first | exact Keeps.refl w | exact runScript_keeps E host hh id _ w

theorem duk_to_string_keeps (E : Engine) (host : Host E) (hh : HostKeeps host) (c : Inst E)
    (idx : Int) (w : World E) : Keeps w (duk_to_string E host c idx w).2.2 := by
  simp only [duk_to_string]
  split
  · exact Keeps.refl w
  · split
    · exact Keeps.refl w
    · rename_i v _
      have hk := coerce_keeps E host hh c.id c.heap v w
      rcases hc : coerce E host c.id c.heap v w with ⟨r, h, w1⟩
      rw [hc] at hk
      cases r <;> exact hk

theorem coerceAll_keeps (E : Engine) (host : Host E) (hh : HostKeeps host) (id : Nat)
    (h : E.Heap) (vs : List Value) (w : World E) :
    Keeps w (coerceAll E host id h vs w).2.2 := by
  induction vs generalizing h w with
  | nil => exact Keeps.refl w
  | cons v vs ih =>
    simp only [coerceAll]
    have hk := coerce_keeps E host hh id h v w
    rcases hc : coerce E host id h v w with ⟨r, h1, w1⟩
    rw [hc] at hk
    cases r with
    | throw e => exact hk
    | exit code => exact hk
    | fault => exact hk
    | ok s =>
      have hk2 := ih h1 w1
      simp only []
      rcases hc2 : coerceAll E host id h1 vs w1 with ⟨r2, h2, w2⟩
      rw [hc2] at hk2
      cases r2 <;> exact hk.trans hk2

theorem duk_join_keeps (E : Engine) (host : Host E) (hh : HostKeeps host) (c : Inst E)
    (count : Int) (w : World E) : Keeps w (duk_join E host c count w).2.2 := by
  simp only [duk_join]
  split
  · exact Keeps.refl w
  · split
    · exact Keeps.refl w
    · split
      · exact Keeps.refl w
      · have hk := coerceAll_keeps E host hh c.id c.heap
          (c.stack.drop (c.stack.length - (count.toNat + 1))) w
        rcases hc : coerceAll E host c.id c.heap
          (c.stack.drop (c.stack.length - (count.toNat + 1))) w with ⟨r, h, w1⟩
        rw [hc] at hk
        cases r with
        | ok ss => cases ss <;> exact hk
        | throw e => exact hk
        | exit code => exact hk
        | fault => exact hk

theorem readFile_keeps {E : Engine} (p : String) (w : World E) : Keeps w (readFile p w).2 := by
  simp only [readFile]
  split
  · split
    · exact keeps_same rfl rfl rfl rfl
    · exact keeps_same rfl rfl rfl rfl
  · exact keeps_event (Event.exit 1) rfl rfl rfl rfl (by intro id h; cases h)

theorem native_print_keeps (E : Engine) (host : Host E) (hh : HostKeeps host) (c : Inst E)
    (w : World E) : Keeps w (native_print E host c w).2.2 := by
  simp only [native_print]
  split
  · exact Keeps.refl w
  · rename_i c1 _
    have hj := duk_join_keeps E host hh c1 (duk_get_top c1 - 1) w
    rcases hj1 : duk_join E host c1 (duk_get_top c1 - 1) w with ⟨r, c2, w1⟩
    rw [hj1] at hj
    cases r with
    | throw e => exact hj
    | exit code => exact hj
    | fault => exact hj
    | ok u =>
      have ht := duk_to_string_keeps E host hh c2 (-1) w1
      simp only []
      rcases ht1 : duk_to_string E host c2 (-1) w1 with ⟨r2, c3, w2⟩
      rw [ht1] at ht
      cases r2 with
      | throw e => exact hj.trans ht
      | exit code => exact hj.trans ht
      | fault => exact hj.trans ht
      | ok s => exact hj.trans (ht.trans (keeps_same rfl rfl rfl rfl))

theorem sandbox_keeps (E : Engine) (host : Host E) (hh : HostKeeps host) (c : Inst E)
    (w : World E) : Keeps w (sandbox E host c w).2.2 := by
  have hk := duk_to_string_keeps E host hh c 0 w
  rcases hd : duk_to_string E host c 0 w with ⟨r, c1, w0⟩
  rw [hd] at hk
  cases r with
  | throw e => rw [sandbox_throw E host c c1 w w0 e hd]; exact hk
  | exit code => rw [sandbox_exit E host c c1 w w0 code hd]; exact hk
  | fault => rw [sandbox_fault E host c c1 w w0 hd]; exact hk
  | ok p =>
    rw [sandbox_ok E host c c1 w w0 p hd]
    have hk0 : Keeps w w0 := hk
    refine hk0.trans ⟨by simp, rfl, rfl, _, rfl, ?_⟩
    intro id hid
    simp only [List.mem_cons, List.mem_singleton, List.not_mem_nil, or_false, reduceCtorEq,
      false_or, Event.destroy.injEq] at hid
    omega

theorem readfile_keeps (E : Engine) (host : Host E) (hh : HostKeeps host) (c : Inst E)
    (w : World E) : Keeps w (readfile E host c w).2.2 := by
  have hk := duk_to_string_keeps E host hh c 0 w
  simp only [readfile]
  rcases hd : duk_to_string E host c 0 w with ⟨r, c1, w0⟩
  rw [hd] at hk
  cases r with
  | throw e => exact hk
  | exit code => exact hk
  | fault => exact hk
  | ok filename =>
    have hr := readFile_keeps filename w0
    simp only []
    rcases hr1 : readFile filename w0 with ⟨r2, w1⟩
    rw [hr1] at hr
    cases r2 <;> exact hk.trans hr

theorem natives_keeps (E : Engine) (depth : Nat) : HostKeeps (natives E depth) := by
  induction depth with
  | zero =>
    intro f body hb
    cases hb
  | succ n ih =>
    intro f body hb c w
    cases f <;> simp only [natives, Option.some.injEq] at hb <;> subst hb
    · exact native_print_keeps E _ ih c w
    · exact sandbox_keeps E _ ih c w
    · exact readfile_keeps E _ ih c w

/-! ## The `sandbox` claims (C1 to C4) -/

/-- C1 (amended): for every argument value whose ToString coercion in the
calling instance gives a string, and for every engine (so for every outcome
of the nested evaluation: success, syntax error, runtime error, a value whose
string conversion fails), `sandbox` raises no error, returns 1 (exactly one
return value), and that value is a string. -/
theorem sandbox_returns_one_string (E : Engine) (host : Host E) (ctx ctx1 : Inst E)
    (w w0 : World E) (p : String)
    (harg : duk_to_string E host ctx 0 w = (Res.ok p, ctx1, w0)) :
    ∃ (s : String) (w1 : World E),
      sandbox E host ctx w
        = (Res.ok 1, { ctx1 with stack := ctx1.stack ++ [Value.string s] }, w1)
      ∧ returned E (sandbox E host ctx w) = some (Except.ok (Value.string s)) := by
  have h := sandbox_ok E host ctx ctx1 w w0 p harg
  exact ⟨_, _, h, by rw [h, returned_push]⟩

/-- C1, concrete runs in the small engine: `sandbox("12")` returns one string,
which is `12`; the non-string argument 7 is stringified and gives `7`; the
source `oops`, whose evaluation fails, gives the error text. -/
theorem sandbox_returns_one_string_witness :
    (∃ (s : String) (w1 : World miniEngine),
      sandbox miniEngine (natives miniEngine 4) (topInst [Value.string "12"]) topWorld
        = (Res.ok 1,
           { topInst [Value.string "12"] with
             stack := (topInst [Value.string "12"]).stack ++ [Value.string s] }, w1)
      ∧ returned miniEngine
          (sandbox miniEngine (natives miniEngine 4) (topInst [Value.string "12"]) topWorld)
        = some (Except.ok (Value.string s)))
    ∧ returned miniEngine
        (sandbox miniEngine (natives miniEngine 4) (topInst [Value.string "12"]) topWorld)
        = some (Except.ok (Value.string "12"))
    ∧ returned miniEngine
        (sandbox miniEngine (natives miniEngine 4) (topInst [Value.number 7]) topWorld)
        = some (Except.ok (Value.string "7"))
    ∧ returned miniEngine
        (sandbox miniEngine (natives miniEngine 4) (topInst [Value.string "oops"]) topWorld)
        = some (Except.ok (Value.string "ReferenceError: identifier 'oops' undefined")) :=
  ⟨sandbox_returns_one_string miniEngine (natives miniEngine 4) (topInst [Value.string "12"])
    (topInst [Value.string "12"]) topWorld topWorld "12" rfl, rfl, rfl, rfl⟩

/-- C1 as stated fails: an argument whose string conversion throws (here an
object whose `toString` throws) is not stringified; `sandbox` raises the
conversion error into the calling instance, where the calling script gets it
as a thrown error, and no instance is created. -/
theorem sandbox_raises_on_uncoercible_argument :
    (sandbox miniEngine (natives miniEngine 4) (topInst [Value.object 3]) topWorld).1
        = Res.throw (Value.object 0)
    ∧ (runScript miniEngine (natives miniEngine 4) 0
        (Script.call topHeap Native.sandbox 1 [Value.object 3]
          (fun h r => (Script.done h r : Script MiniHeap Value))) topWorld).1
        = Res.ok (Except.error (Value.object 0))
    ∧ (sandbox miniEngine (natives miniEngine 4) (topInst [Value.object 3]) topWorld).2.2.trace.length
        = topWorld.trace.length := by
  exact ⟨rfl, rfl, rfl⟩

theorem miniEngine_clean : CleanDefault miniEngine := by
  intro n hn
  simp only [hostNames, List.mem_cons, List.mem_singleton, List.not_mem_nil, or_false] at hn
  rcases hn with rfl | rfl | rfl <;> rfl

theorem miniEngine_unbound : UnboundFails miniEngine := by
  intro h n hn hg
  have hl : h.globals.lookup n = none := hg
  simp only [hostNames, List.mem_cons, List.mem_singleton, List.not_mem_nil, or_false] at hn
  rcases hn with rfl | rfl | rfl
  · refine ⟨(miniThrow h "ReferenceError: identifier 'print' undefined").1,
      (miniThrow h "ReferenceError: identifier 'print' undefined").2, ?_⟩
    show miniEval h "print" = _
    simp [miniEval, miniValue, miniCall, miniAtom, isDigits, hl]
  · refine ⟨(miniThrow h "ReferenceError: identifier 'sandbox' undefined").1,
      (miniThrow h "ReferenceError: identifier 'sandbox' undefined").2, ?_⟩
    show miniEval h "sandbox" = _
    simp [miniEval, miniValue, miniCall, miniAtom, isDigits, hl]
  · refine ⟨(miniThrow h "ReferenceError: identifier 'readfile' undefined").1,
      (miniThrow h "ReferenceError: identifier 'readfile' undefined").2, ?_⟩
    show miniEval h "readfile" = _
    simp [miniEval, miniValue, miniCall, miniAtom, isDigits, hl]

theorem boxOutcome_unbound (E : Engine) (hclean : CleanDefault E) (hunbound : UnboundFails E)
    (n : String) (hn : n ∈ hostNames) : (boxOutcome E n).2.2 = DUK_EXEC_ERROR := by
  obtain ⟨h1, e, he⟩ := hunbound E.fresh n hn (hclean n hn)
  simp [boxOutcome, he, pureRun]

/-- C2: whatever the calling instance is and binds, `sandbox` creates a new
instance with the default heap under a new handle, evaluates the source in
that heap and in no other, and destroys it; what it returns is the same for
every caller that passes the same source text.  Given that the engine's
default heap has no binding for `print`, `sandbox` or `readfile` and that the
engine fails on an unbound identifier, each of these three names as source
fails inside the new instance (`duk_peval` returns 1, reported on standard
error) while the caller gets that failure back as a string, not as a thrown
error. -/
theorem sandbox_evaluates_in_clean_default_instance (E : Engine) (host : Host E)
    (ctx ctx1 : Inst E) (w w0 : World E) (p : String)
    (harg : duk_to_string E host ctx 0 w = (Res.ok p, ctx1, w0))
    (hclean : CleanDefault E) (hunbound : UnboundFails E) :
    (sandbox E host ctx w).2.2.trace
        = w0.trace ++ [Event.create w0.next, Event.eval w0.next E.fresh (cstr p),
            Event.destroy w0.next]
    ∧ (∀ (host2 : Host E) (ctx2 ctx3 : Inst E) (w2 w3 : World E) (p2 : String),
        duk_to_string E host2 ctx2 0 w2 = (Res.ok p2, ctx3, w3) → cstr p2 = cstr p →
          returned E (sandbox E host2 ctx2 w2) = returned E (sandbox E host ctx w))
    ∧ (∀ n ∈ hostNames, cstr p = n →
        returned E (sandbox E host ctx w)
            = some (Except.ok (Value.string (sandboxResult E n)))
        ∧ (sandbox E host ctx w).2.2.err
            = w0.err ++ ("warning: sandbox returned non-zero rc=1 result="
                ++ sandboxResult E n ++ " code:\n" ++ n ++ "\n")) := by
  have h := sandbox_ok E host ctx ctx1 w w0 p harg
  refine ⟨by rw [h], ?_, ?_⟩
  · intro host2 ctx2 ctx3 w2 w3 p2 h2 hp
    rw [h, sandbox_ok E host2 ctx2 ctx3 w2 w3 p2 h2, returned_push, returned_push, hp]
  · intro n hn hp
    have hrc := boxOutcome_unbound E hclean hunbound n hn
    rw [h, returned_push, hp]
    refine ⟨rfl, ?_⟩
    simp only [sandboxWarning, hrc]
    rfl

/-- C2, a concrete run: the caller is the top-level instance as `main` sets
it up (handle 0, with `print`, `sandbox` and `readfile` bound); there the
source `sandbox` evaluates to the registered function, yet `sandbox("sandbox")`
evaluates in a new instance (handle 1) with the default heap, where it fails,
and the caller gets the error text as a string. -/
theorem sandbox_evaluates_in_clean_default_instance_witness :
    ((sandbox miniEngine (natives miniEngine 4) (topInst [Value.string "sandbox"])
          topWorld).2.2.trace
        = topWorld.trace ++ [Event.create topWorld.next,
            Event.eval topWorld.next miniEngine.fresh (cstr "sandbox"),
            Event.destroy topWorld.next]
      ∧ (∀ (host2 : Host miniEngine) (ctx2 ctx3 : Inst miniEngine) (w2 w3 : World miniEngine)
          (p2 : String),
          duk_to_string miniEngine host2 ctx2 0 w2 = (Res.ok p2, ctx3, w3) →
          cstr p2 = cstr "sandbox" →
            returned miniEngine (sandbox miniEngine host2 ctx2 w2)
              = returned miniEngine (sandbox miniEngine (natives miniEngine 4)
                  (topInst [Value.string "sandbox"]) topWorld))
      ∧ (∀ n ∈ hostNames, cstr "sandbox" = n →
          returned miniEngine (sandbox miniEngine (natives miniEngine 4)
              (topInst [Value.string "sandbox"]) topWorld)
              = some (Except.ok (Value.string (sandboxResult miniEngine n)))
          ∧ (sandbox miniEngine (natives miniEngine 4) (topInst [Value.string "sandbox"])
              topWorld).2.2.err
              = topWorld.err ++ ("warning: sandbox returned non-zero rc=1 result="
                  ++ sandboxResult miniEngine n ++ " code:\n" ++ n ++ "\n")))
    ∧ (topInst [Value.string "sandbox"]).id = 0
    ∧ topWorld.next = 1
    ∧ topWorld.live = [0]
    ∧ miniEngine.getGlobal topHeap "print" = some (Value.cfunction Native.native_print DUK_VARARGS)
    ∧ miniEngine.getGlobal topHeap "sandbox" = some (Value.cfunction Native.sandbox 1)
    ∧ miniEngine.getGlobal topHeap "readfile" = some (Value.cfunction Native.readfile 1)
    ∧ (runScript miniEngine (natives miniEngine 4) 0 (miniEngine.eval topHeap "sandbox")
        topWorld).1 = Res.ok (Except.ok (Value.cfunction Native.sandbox 1))
    ∧ returned miniEngine (sandbox miniEngine (natives miniEngine 4)
        (topInst [Value.string "sandbox"]) topWorld)
        = some (Except.ok (Value.string "ReferenceError: identifier 'sandbox' undefined"))
    ∧ (runScript miniEngine (natives miniEngine 4) 0
        (miniEngine.eval topHeap "sandbox(\"sandbox\")") topWorld).1
        = Res.ok (Except.ok (Value.string "ReferenceError: identifier 'sandbox' undefined")) :=
  ⟨sandbox_evaluates_in_clean_default_instance miniEngine (natives miniEngine 4)
    (topInst [Value.string "sandbox"]) (topInst [Value.string "sandbox"]) topWorld topWorld
    "sandbox" rfl miniEngine_clean miniEngine_unbound,
    rfl, rfl, rfl, rfl, rfl, rfl, rfl, rfl, rfl⟩

/-- C3: on every path (the argument conversion throws or ends the process;
the nested evaluation succeeds; the nested evaluation fails) the live
instances after `sandbox` are those before it.  Whatever the conversion of
the argument runs in the calling instance keeps the frame condition; after
it, `sandbox` either does nothing more to instances or creates one instance,
evaluates in it and destroys it, the destruction being its last instance
operation.  For a string argument the log of the call is exactly create,
evaluate, destroy of one new handle. -/
theorem sandbox_leaves_no_instance (E : Engine) (depth : Nat) (ctx : Inst E) (w : World E) :
    (sandbox E (natives E depth) ctx w).2.2.live = w.live
    ∧ Keeps w (duk_to_string E (natives E depth) ctx 0 w).2.2
    ∧ ((sandbox E (natives E depth) ctx w).2.2.trace
          = (duk_to_string E (natives E depth) ctx 0 w).2.2.trace
       ∨ ∃ src, (sandbox E (natives E depth) ctx w).2.2.trace
          = (duk_to_string E (natives E depth) ctx 0 w).2.2.trace
            ++ [Event.create (duk_to_string E (natives E depth) ctx 0 w).2.2.next,
                Event.eval (duk_to_string E (natives E depth) ctx 0 w).2.2.next E.fresh src,
                Event.destroy (duk_to_string E (natives E depth) ctx 0 w).2.2.next])
    ∧ (∀ (s : String) (rest : List Value), ctx.stack = Value.string s :: rest →
        (sandbox E (natives E depth) ctx w).2.2.trace
          = w.trace ++ [Event.create w.next, Event.eval w.next E.fresh (cstr s),
              Event.destroy w.next]) := by
  have hk := duk_to_string_keeps E (natives E depth) (natives_keeps E depth) ctx 0 w
  refine ⟨(sandbox_keeps E _ (natives_keeps E depth) ctx w).2.1, hk, ?_, ?_⟩
  · rcases hd : duk_to_string E (natives E depth) ctx 0 w with ⟨r, ctx1, w0⟩
    cases r with
    | throw e => rw [sandbox_throw E _ ctx ctx1 w w0 e hd]; exact Or.inl rfl
    | exit code => rw [sandbox_exit E _ ctx ctx1 w w0 code hd]; exact Or.inl rfl
    | fault => rw [sandbox_fault E _ ctx ctx1 w w0 hd]; exact Or.inl rfl
    | ok p => rw [sandbox_ok E _ ctx ctx1 w w0 p hd]; exact Or.inr ⟨_, rfl⟩
  · intro s rest hs
    rw [sandbox_ok E _ ctx ctx w w s (duk_to_string_string E _ ctx s rest w hs)]

/-- C4: the value `sandbox(s2)` returns when it is called after `sandbox(s1)`
is the value it returns when no call preceded it, and that value is the
string `sandboxResult E (cstr s2)`, a function of the source text alone. -/
theorem sandbox_result_depends_on_source_only (E : Engine) (host : Host E) (ctx : Inst E)
    (w : World E) (s1 s2 : String) :
    returned E
        (sandbox E host
          (activation (sandbox E host (activation ctx 1 [Value.string s1]) w).2.1 1
            [Value.string s2])
          (sandbox E host (activation ctx 1 [Value.string s1]) w).2.2)
      = returned E (sandbox E host (activation ctx 1 [Value.string s2]) w)
    ∧ returned E (sandbox E host (activation ctx 1 [Value.string s2]) w)
      = some (Except.ok (Value.string (sandboxResult E (cstr s2)))) := by
  rw [sandbox_string_arg, sandbox_string_arg]
  exact ⟨rfl, rfl⟩

/-! ## The `print` claim (C7) -/

theorem duk_join_all (E : Engine) (host : Host E) (c : Inst E) (sep : String) (v : Value)
    (vs : List Value) (count : Int) (w : World E) (hcount : count = (vs.length : Int) + 1)
    (hstack : c.stack = Value.string sep :: v :: vs) :
    duk_join E host c count w
      = match coerceAll E host c.id c.heap (v :: vs) w with
        | (Res.ok ss, h, w1) =>
          (Res.ok (), { c with heap := h, stack := [Value.string (sep.intercalate ss)] }, w1)
        | (Res.throw e, h, w1) => (Res.throw e, { c with heap := h }, w1)
        | (Res.exit code, h, w1) => (Res.exit code, { c with heap := h }, w1)
        | (Res.fault, h, w1) => (Res.fault, { c with heap := h }, w1) := by
  subst hcount
  have h1 : ¬ ((vs.length : Int) + 1 < 0) := by omega
  have h2 : ¬ ((vs.length : Int) + 1 = 0) := by omega
  have h3 : ¬ ((c.stack.length : Int) < (vs.length : Int) + 1 + 1) := by
    simp [hstack]
  have h4 : c.stack.length - (((vs.length : Int) + 1).toNat + 1) = 0 := by
    have : ((vs.length : Int) + 1).toNat = vs.length + 1 := by omega
    simp [hstack, this]
  have h5 : coerceAll E host c.id c.heap c.stack w
      = match coerceAll E host c.id c.heap (v :: vs) w with
        | (Res.ok ss, h2, w2) => (Res.ok (sep :: ss), h2, w2)
        | r => r := by
    have hsep : coerce E host c.id c.heap (Value.string sep) w = (Res.ok sep, c.heap, w) := rfl
    rw [hstack, coerceAll, hsep]
  simp only [duk_join, if_neg h1, if_neg h2, if_neg h3, h4, List.drop_zero, List.take_zero, h5,
    List.nil_append]
  rcases coerceAll E host c.id c.heap (v :: vs) w with ⟨r, h, w1⟩
  cases r <;> rfl

/-- C7 (amended): for every list of arguments (of any length, the empty list
included), `print` first converts the arguments to strings, in order, in the
calling instance.  When every conversion gives a string, `print` then writes
to standard output the characters of the space-joined string that come
before its first NUL (all of it when it has none), followed by one newline,
and returns no value (return code 0).  When a conversion throws, `print`
writes nothing itself and raises that error; when a conversion ends the
process, `print` writes nothing itself.  The process state `print` starts
writing from is the one the conversions leave. -/
theorem native_print_writes_joined_cstring (E : Engine) (host : Host E) (ctx : Inst E)
    (w : World E) :
    ((native_print E host ctx w).1, (native_print E host ctx w).2.2)
      = printSpec (coerceAll E host ctx.id ctx.heap ctx.stack w) := by
  have hsp : cstr " " = " " := by decide
  have hi : duk_insert (duk_push_string ctx (some " ")) 0
      = Except.ok { ctx with stack := Value.string " " :: ctx.stack } := by
    simp [duk_insert, duk_push_string, hsp, normIdx_zero]
  simp only [native_print, hi]
  cases hs : ctx.stack with
  | nil =>
    have hn : normIdx 2 (-1) = some 1 := normIdx_top 1
    simp [duk_join, duk_get_top, duk_to_string, hn, coerce, coerceAll, printSpec]
    rfl
  | cons v vs =>
    have ht : duk_get_top { ctx with stack := Value.string " " :: v :: vs } - 1
        = (vs.length : Int) + 1 := by
      simp [duk_get_top]
    have hj := duk_join_all E host { ctx with stack := Value.string " " :: v :: vs } " " v vs
      _ w ht rfl
    have hn : normIdx 1 (-1) = some 0 := normIdx_top 0
    rw [hj]
    simp only []
    rcases coerceAll E host ctx.id ctx.heap (v :: vs) w with ⟨r, h, w1⟩
    cases r with
    | ok ss => simp [duk_to_string, hn, coerce, printSpec]
    | throw e => rfl
    | exit code => rfl
    | fault => rfl

/-- C7, concrete runs: `print("a","b")` writes `a b` and a newline; `print()`
writes a newline; for an argument whose `toString` itself prints `x`, that
line comes first and the line of the outer `print` after it. -/
theorem native_print_writes_joined_cstring_witness :
    ((native_print miniEngine (natives miniEngine 4)
          (topInst [Value.string "a", Value.string "b"]) topWorld).1,
      (native_print miniEngine (natives miniEngine 4)
          (topInst [Value.string "a", Value.string "b"]) topWorld).2.2)
      = printSpec (coerceAll miniEngine (natives miniEngine 4)
          (topInst [Value.string "a", Value.string "b"]).id
          (topInst [Value.string "a", Value.string "b"]).heap
          (topInst [Value.string "a", Value.string "b"]).stack topWorld)
    ∧ (native_print miniEngine (natives miniEngine 4)
          (topInst [Value.string "a", Value.string "b"]) topWorld).1 = Res.ok 0
    ∧ (native_print miniEngine (natives miniEngine 4)
          (topInst [Value.string "a", Value.string "b"]) topWorld).2.2.out = "a b\n"
    ∧ (native_print miniEngine (natives miniEngine 4) (topInst []) topWorld).2.2.out = "\n"
    ∧ (native_print miniEngine (natives miniEngine 4)
          (objInst [MiniObj.deferred Native.native_print DUK_VARARGS (Value.string "x")]
            [Value.string "a", Value.object 0]) topWorld).2.2.out = "x\na undefined\n" :=
  ⟨native_print_writes_joined_cstring miniEngine (natives miniEngine 4)
      (topInst [Value.string "a", Value.string "b"]) topWorld, rfl, rfl, rfl, rfl⟩

/-- C7 as stated fails: for the one argument `a NUL b` the string forms joined
and followed by a newline are `a NUL b` newline, but `print` writes `a`
newline; and for an argument whose string conversion throws, `print` writes
nothing and raises the error. -/
theorem native_print_cuts_at_nul :
    (native_print miniEngine (natives miniEngine 4)
        (topInst [Value.string (String.mk ['a', NUL, 'b'])]) topWorld).2.2.out = "a\n"
    ∧ String.mk ['a', NUL, 'b'] ++ "\n" ≠ "a\n"
    ∧ (native_print miniEngine (natives miniEngine 4) (topInst [Value.object 3]) topWorld).1
        = Res.throw (Value.object 0)
    ∧ (native_print miniEngine (natives miniEngine 4) (topInst [Value.object 3])
        topWorld).2.2.out = "" := by
  exact ⟨rfl, by decide, rfl, rfl⟩

/-! ## The `readfile` claim (C6) -/

theorem readFile_unopenable {E : Engine} (p : String) (w : World E)
    (hno : fopen w (cstr p) = none) :
    readFile p w
      = (Res.exit 1,
         { w with err := w.err ++ ("reading '" ++ cstr p ++ "'\n")
                    ++ ("couldn't read '" ++ cstr p ++ "'\n"),
                  trace := w.trace ++ [Event.exit 1] }) := by
  have h : fopen (fprintf_stderr w ("reading '" ++ cstr p ++ "'\n")) (cstr p) = none := hno
  simp only [readFile, h]
  rfl

/-- C6 (amended): for every path that cannot be opened, `readfile(path)`
raises nothing: it ends the process with `exit(1)` (after writing the path
to standard error), so whatever the calling script would do with the result
or with an error (every continuation `k`) never runs. -/
theorem readfile_unopenable_path_exits (E : Engine) (host : Host E) (ctx ctx1 : Inst E)
    (w w0 : World E) (p : String)
    (harg : duk_to_string E host ctx 0 w = (Res.ok p, ctx1, w0))
    (hno : fopen w0 (cstr p) = none) :
    (readfile E host ctx w).1 = Res.exit 1
    ∧ (readfile E host ctx w).2.2.trace = w0.trace ++ [Event.exit 1]
    ∧ ∀ (depth id : Nat) (h : E.Heap) (k : E.Heap → Except Value Value → Script E.Heap Value),
        (runScript E (natives E (depth + 1)) id
          (Script.call h Native.readfile 1 [Value.string p] k) w0).1 = Res.exit 1 := by
  have hr : readfile E host ctx w = (Res.exit 1, ctx1, (readFile p w0).2) := by
    simp only [readfile, harg, readFile_unopenable p w0 hno]
  refine ⟨by rw [hr], by rw [hr, readFile_unopenable p w0 hno], ?_⟩
  intro depth id h k
  have ha := duk_to_string_string_arg E (natives E depth) { id := id, heap := h, stack := [] }
    p w0
  simp only [activation] at ha
  simp only [runScript, natives, readfile, ha, readFile_unopenable p w0 hno]

/-- C6, a concrete run: `readfile("nope")` where no file `nope` exists. -/
theorem readfile_unopenable_path_exits_witness :
    (readfile miniEngine (natives miniEngine 4) (topInst [Value.string "nope"]) topWorld).1
        = Res.exit 1
    ∧ (readfile miniEngine (natives miniEngine 4) (topInst [Value.string "nope"])
        topWorld).2.2.trace = topWorld.trace ++ [Event.exit 1]
    ∧ ∀ (depth id : Nat) (h : miniEngine.Heap)
        (k : miniEngine.Heap → Except Value Value → Script miniEngine.Heap Value),
        (runScript miniEngine (natives miniEngine (depth + 1)) id
          (Script.call h Native.readfile 1 [Value.string "nope"] k) topWorld).1
          = Res.exit 1 :=
  readfile_unopenable_path_exits miniEngine (natives miniEngine 4)
    (topInst [Value.string "nope"]) (topInst [Value.string "nope"]) topWorld topWorld
    "nope" rfl rfl

/-- C6 as stated fails: `readfile` of a path that cannot be opened throws no
error into the calling instance; the call ends with `exit(1)`, and a script
that would go on after the call (here: hand back what the call gave) does not
go on. -/
theorem readfile_does_not_raise :
    (readfile miniEngine (natives miniEngine 4) (topInst [Value.string "nope"]) topWorld).1
        = Res.exit 1
    ∧ returned miniEngine
        (readfile miniEngine (natives miniEngine 4) (topInst [Value.string "nope"]) topWorld)
        = none
    ∧ (runScript miniEngine (natives miniEngine 4) 0
        (miniEngine.eval topHeap "readfile(\"nope\")") topWorld).1 = Res.exit 1 := by
  exact ⟨rfl, rfl, rfl⟩

/-! ## The per-file evaluation and `main` -/

theorem duk_get_string_top {E : Engine} (id : Nat) (h : E.Heap) (base : List Value) (x : Value) :
    (match duk_get_string { id := id, heap := h, stack := base ++ [x] } (-1) with
      | some r => cstr r
      | none => "null") = display x := by
  simp only [duk_get_string, List.length_append, List.length_singleton, normIdx_top,
    List.get?_eq_getElem?, List.getElem?_concat_length]
  cases x <;> rfl

theorem duk_safe_call_tostring (E : Engine) (host : Host E) (id : Nat) (h : E.Heap)
    (base : List Value) (x : Value) (w : World E) :
    duk_safe_call E (tostring_raw E host) { id := id, heap := h, stack := base ++ [x] } w
      = match coerce E host id h x w with
        | (Res.ok s, h2, w3) =>
          (Res.ok DUK_EXEC_SUCCESS,
            { id := id, heap := h2, stack := base ++ [Value.string s] }, w3)
        | (Res.throw e, h2, w3) =>
          (Res.ok DUK_EXEC_ERROR, { id := id, heap := h2, stack := base ++ [e] }, w3)
        | (Res.exit code, h2, w3) =>
          (Res.exit code, { id := id, heap := h2, stack := base ++ [x] }, w3)
        | (Res.fault, h2, w3) =>
          (Res.fault, { id := id, heap := h2, stack := base ++ [x] }, w3) := by
  simp only [duk_safe_call, List.getLast?_concat, tostring_raw,
    duk_to_string, List.length_append, List.length_singleton, normIdx_top,
    List.get?_eq_getElem?, List.getElem?_concat_length]
  rcases coerce E host id h x w with ⟨r, h1, w1⟩
  cases r with
  | ok s => simp
  | throw e => simp
  | exit code => rfl
  | fault => rfl

theorem duk_safe_call_eval (E : Engine) (host : Host E) (id : Nat) (h : E.Heap)
    (base : List Value) (src : String) (w : World E) :
    duk_safe_call E (eval_raw E host)
        { id := id, heap := h, stack := base ++ [Value.string src] } w
      = match runScript E host id (E.eval h src) (logEval id h src w) with
        | (Res.ok c, h1, w1) =>
          (Res.ok (match c with | Except.ok _ => DUK_EXEC_SUCCESS | Except.error _ => DUK_EXEC_ERROR),
            { id := id, heap := h1, stack := base ++ [merge c] }, w1)
        | (Res.throw e, h1, w1) =>
          (Res.ok DUK_EXEC_ERROR, { id := id, heap := h1, stack := base ++ [e] }, w1)
        | (Res.exit code, h1, w1) =>
          (Res.exit code, { id := id, heap := h1, stack := base ++ [Value.string src] }, w1)
        | (Res.fault, h1, w1) =>
          (Res.fault, { id := id, heap := h1, stack := base ++ [Value.string src] }, w1) := by
  simp only [duk_safe_call, List.getLast?_concat, List.dropLast_concat, eval_raw, duk_eval]
  rcases runScript E host id (E.eval h src) (logEval id h src w) with ⟨r, h1, w1⟩
  cases r with
  | ok c => cases c <;> simp [merge]
  | throw e => simp
  | exit code => rfl
  | fault => rfl

theorem convOutcome_of_call {E : Engine} (ctx : Inst E) (x : Value) (h1 : E.Heap)
    (host : Host E) (w2 : World E) :
    (match duk_safe_call E (tostring_raw E host)
        { id := ctx.id, heap := h1, stack := ctx.stack ++ [x] } w2 with
      | (Res.throw e, ctx, w) => (Res.throw e, ctx, w)
      | (Res.exit code, ctx, w) => (Res.exit code, ctx, w)
      | (Res.fault, ctx, w) => (Res.fault, ctx, w)
      | (Res.ok _, ctx, w) =>
        (Res.ok (), duk_pop ctx,
          printf w ((match duk_get_string ctx (-1) with
            | some r => cstr r
            | none => "null") ++ "\n")))
      = convOutcome ctx x (coerce E host ctx.id h1 x w2) := by
  rw [duk_safe_call_tostring]
  rcases coerce E host ctx.id h1 x w2 with ⟨r, h2, w3⟩
  cases r with
  | ok s => simp only [duk_get_string_top, duk_pop, List.dropLast_concat, convOutcome, display]
  | throw e => simp only [duk_get_string_top, duk_pop, List.dropLast_concat, convOutcome]
  | exit code => rfl
  | fault => rfl

theorem evaluateFile_ok (E : Engine) (host : Host E) (path : String) (ctx : Inst E)
    (w : World E) (buf : String) (w1 : World E) (hread : readFile path w = (Res.ok buf, w1)) :
    evaluateFile E host path ctx w
      = fileOutcome E host ctx (cstr buf)
          (runScript E host ctx.id (E.eval ctx.heap (cstr buf))
            (logEval ctx.id ctx.heap (cstr buf) w1)).1
          (runScript E host ctx.id (E.eval ctx.heap (cstr buf))
            (logEval ctx.id ctx.heap (cstr buf) w1)).2.1
          (runScript E host ctx.id (E.eval ctx.heap (cstr buf))
            (logEval ctx.id ctx.heap (cstr buf) w1)).2.2 := by
  simp only [evaluateFile, hread, duk_push_string, duk_safe_call_eval]
  rcases runScript E host ctx.id (E.eval ctx.heap (cstr buf))
    (logEval ctx.id ctx.heap (cstr buf) w1) with ⟨r, h1, w2⟩
  cases r with
  | ok c => exact convOutcome_of_call ctx (merge c) h1 host w2
  | throw e => exact convOutcome_of_call ctx e h1 host w2
  | exit code => rfl
  | fault => rfl

theorem convOutcome_inv {E : Engine} (ctx : Inst E) (x : Value)
    (r : Res String × E.Heap × World E) :
    (convOutcome ctx x r).2.1.id = ctx.id ∧ Keeps r.2.2 (convOutcome ctx x r).2.2
    ∧ ∀ e, (convOutcome ctx x r).1 ≠ Res.throw e := by
  rcases r with ⟨r, h, w⟩
  cases r with
  | ok s => exact ⟨rfl, Keeps.refl _, fun e h => by cases h⟩
  | throw e => exact ⟨rfl, Keeps.refl _, fun e h => by cases h⟩
  | exit code => exact ⟨rfl, Keeps.refl _, fun e h => by cases h⟩
  | fault => exact ⟨rfl, Keeps.refl _, fun e h => by cases h⟩

theorem fileOutcome_inv (E : Engine) (host : Host E) (hh : HostKeeps host) (ctx : Inst E)
    (src : String) (r : Res (Except Value Value)) (h : E.Heap) (w2 : World E) :
    (fileOutcome E host ctx src r h w2).2.1.id = ctx.id
    ∧ Keeps w2 (fileOutcome E host ctx src r h w2).2.2
    ∧ ∀ e, (fileOutcome E host ctx src r h w2).1 ≠ Res.throw e := by
  cases r with
  | ok c =>
    obtain ⟨a, b, d⟩ := convOutcome_inv ctx (merge c) (coerce E host ctx.id h (merge c) w2)
    exact ⟨a, (coerce_keeps E host hh ctx.id h (merge c) w2).trans b, d⟩
  | throw e =>
    obtain ⟨a, b, d⟩ := convOutcome_inv ctx e (coerce E host ctx.id h e w2)
    exact ⟨a, (coerce_keeps E host hh ctx.id h e w2).trans b, d⟩
  | exit code => exact ⟨rfl, Keeps.refl _, fun e h => by cases h⟩
  | fault => exact ⟨rfl, Keeps.refl _, fun e h => by cases h⟩

theorem takeWhile_set_last {α : Type} (p : α → Bool) (a : α) (hpa : p a = false) :
    ∀ l : List α, l ≠ [] → (l.set (l.length - 1) a).takeWhile p = l.dropLast.takeWhile p := by
  intro l
  induction l with
  | nil => intro h; exact absurd rfl h
  | cons x xs ih =>
    intro _
    cases xs with
    | nil => simp [List.takeWhile_cons, hpa]
    | cons y ys =>
      have h1 : (x :: y :: ys).length - 1 = ((y :: ys).length - 1) + 1 := by simp
      rw [h1, List.set_cons_succ, List.dropLast_cons₂, List.takeWhile_cons, List.takeWhile_cons,
        ih (by simp)]

theorem writeByte_last (l : List Char) (hne : l ≠ []) :
    writeByte l ((l.length : Int) - 1) NUL = some (l.set (l.length - 1) NUL) := by
  have hpos : 1 ≤ l.length := List.length_pos.mpr hne
  have hc : 0 ≤ (l.length : Int) - 1 ∧ (l.length : Int) - 1 < l.length := ⟨by omega, by omega⟩
  have ht : ((l.length : Int) - 1).toNat = l.length - 1 := by omega
  simp only [writeByte, if_pos hc, ht]

theorem readFile_ok {E : Engine} (path : String) (w : World E) (contents : String)
    (hopen : fopen w (cstr path) = some contents) (hne : contents.data ≠ []) :
    ∃ err, readFile path w
      = (Res.ok (String.mk (contents.data.set (contents.data.length - 1) NUL)),
         { w with err := err }) := by
  have h : fopen (fprintf_stderr w ("reading '" ++ cstr path ++ "'\n")) (cstr path)
      = some contents := hopen
  have hw := writeByte_last contents.data hne
  have hl : contents.length = contents.data.length := rfl
  simp only [readFile, h, hl, hw]
  exact ⟨_, rfl⟩

theorem readFile_empty {E : Engine} (path : String) (w : World E) (contents : String)
    (hopen : fopen w (cstr path) = some contents) (hnil : contents.data = []) :
    (readFile path w).1 = Res.fault := by
  have h : fopen (fprintf_stderr w ("reading '" ++ cstr path ++ "'\n")) (cstr path)
      = some contents := hopen
  have hl : contents.length = 0 := by
    show contents.data.length = 0
    rw [hnil]
    rfl
  simp [readFile, h, hl, writeByte]

theorem cstr_buffer (l : List Char) (hne : l ≠ []) :
    cstr (String.mk (l.set (l.length - 1) NUL)) = cstr (String.mk l.dropLast) := by
  simp only [cstr]
  rw [takeWhile_set_last _ NUL (by decide) l hne]

/-- C8 (amended): for every readable, non-empty file, the source text the
per-file evaluation hands to the top-level interpreter is the file's contents
without the last byte, read as a C string (cut at the first NUL byte, if
any): the evaluation it logs first is of exactly that text, in the top-level
instance. -/
theorem evaluateFile_source_is_file_without_last_byte (E : Engine) (depth : Nat)
    (path : String) (ctx : Inst E) (w : World E) (contents : String)
    (hopen : fopen w (cstr path) = some contents) (hne : contents.data ≠ []) :
    ∃ tail, (evaluateFile E (natives E depth) path ctx w).2.2.trace
      = w.trace ++ Event.eval ctx.id ctx.heap (cstr (String.mk contents.data.dropLast)) :: tail := by
  obtain ⟨err, hr⟩ := readFile_ok path w contents hopen hne
  have hh := natives_keeps E depth
  rw [evaluateFile_ok E _ path ctx w _ _ hr, cstr_buffer contents.data hne]
  obtain ⟨-, h3, -⟩ := fileOutcome_inv E (natives E depth) hh ctx
    (cstr (String.mk contents.data.dropLast))
    (runScript E (natives E depth) ctx.id
      (E.eval ctx.heap (cstr (String.mk contents.data.dropLast)))
      (logEval ctx.id ctx.heap (cstr (String.mk contents.data.dropLast)) { w with err := err })).1
    (runScript E (natives E depth) ctx.id
      (E.eval ctx.heap (cstr (String.mk contents.data.dropLast)))
      (logEval ctx.id ctx.heap (cstr (String.mk contents.data.dropLast)) { w with err := err })).2.1
    (runScript E (natives E depth) ctx.id
      (E.eval ctx.heap (cstr (String.mk contents.data.dropLast)))
      (logEval ctx.id ctx.heap (cstr (String.mk contents.data.dropLast)) { w with err := err })).2.2
  obtain ⟨-, -, -, evs, ht, -⟩ := (runScript_keeps E (natives E depth) hh ctx.id _ _).trans h3
  rw [ht]
  exact ⟨evs, by simp [logEval]⟩

/-- C8, a concrete run: the file `b.js` holds the three bytes `42` newline;
the source handed to the interpreter is `42` and the printed result is `42`. -/
theorem evaluateFile_source_is_file_without_last_byte_witness :
    (∃ tail, (evaluateFile miniEngine (natives miniEngine 4) "b.js" (topInst [])
        topWorld).2.2.trace
      = topWorld.trace
          ++ Event.eval (topInst []).id (topInst []).heap
              (cstr (String.mk ("42\n" : String).data.dropLast)) :: tail)
    ∧ cstr (String.mk ("42\n" : String).data.dropLast) = "42"
    ∧ (evaluateFile miniEngine (natives miniEngine 4) "b.js" (topInst []) topWorld).2.2.out
        = "42\n" :=
  ⟨evaluateFile_source_is_file_without_last_byte miniEngine 4 "b.js" (topInst []) topWorld
      "42\n" rfl (by decide), by decide, rfl⟩

/-- C8 as stated fails: the file `a.js` holds exactly the two bytes `42`, a
source that evaluates to the number 42, yet the source handed to the
interpreter is `4` and the result printed for the path is `4`. -/
theorem evaluateFile_drops_last_byte :
    fopen topWorld "a.js" = some "42"
    ∧ (readFile "a.js" topWorld).1 = Res.ok (String.mk ['4', NUL])
    ∧ (evaluateFile miniEngine (natives miniEngine 4) "a.js" (topInst []) topWorld).2.2.out
        = "4\n"
    ∧ (main miniEngine "" ["demo", "a.js"] miniWorld).2.out = "4\n" := by
  exact ⟨rfl, rfl, rfl, rfl⟩

/-- C10 at its failing input: for the empty file `e.js` (length 0) the store
of the terminator goes to index -1 of a buffer of 0 bytes, outside the
allocation, and `readFile` is a memory fault; for the two-byte file `a.js`
the store is inside the buffer. -/
theorem readFile_empty_file_writes_out_of_bounds :
    fopen miniWorld (cstr "e.js") = some ""
    ∧ writeByte ("" : String).data ((("" : String).length : Int) - 1) NUL = none
    ∧ (readFile "e.js" miniWorld).1 = Res.fault
    ∧ (main miniEngine "" ["demo", "e.js"] miniWorld).1 = Res.fault
    ∧ (readFile "a.js" miniWorld).1 = Res.ok (String.mk ['4', NUL]) := by
  exact ⟨rfl, rfl, rfl, rfl, rfl⟩

end Demo
